import Mathlib

/-!
Verification of the STOMP 1.2 frame model and codec of `stomp_parser`.

The repository's `src/model/frames/mod.rs` declares the frame schema (the
`frames!` invocations for the client and server frame families) and the test
suite; the parser, renderer and builders are generated from that schema by
macros that live outside the provided sources.  Following the repository's
specification (§3–§6), the wire form, the parser and the renderer are modelled
here at the byte level: a wire buffer is a `List Nat` of octets, header values
are byte lists, and typed header values (`accept-version`, `heart-beat`, `ack`,
`content-length`, `version`) carry their decoded representations.
-/

set_option maxRecDepth 10000

/-- UTF-8 encoding of a single character, as a list of octets. -/
def utf8Encode (c : Char) : List Nat :=
  let n := c.toNat
  if n < 0x80 then [n]
  else if n < 0x800 then
    [0xC0 ||| (n >>> 6), 0x80 ||| (n &&& 0x3F)]
  else if n < 0x10000 then
    [0xE0 ||| (n >>> 12), 0x80 ||| ((n >>> 6) &&& 0x3F), 0x80 ||| (n &&& 0x3F)]
  else
    [0xF0 ||| (n >>> 18), 0x80 ||| ((n >>> 12) &&& 0x3F),
     0x80 ||| ((n >>> 6) &&& 0x3F), 0x80 ||| (n &&& 0x3F)]

/-- The UTF-8 bytes of a string (`str::as_bytes` in the source language). -/
def strBytes (s : String) : List Nat :=
  (s.data.map utf8Encode).flatten

/-- Split off the first line of a buffer: the bytes before the first LF and
the bytes after it.  `none` when the buffer holds no LF. -/
def takeLine : List Nat → Option (List Nat × List Nat)
  | [] => none
  | b :: rest =>
    if b = 10 then some ([], rest)
    else
      match takeLine rest with
      | none => none
      | some (l, r) => some (b :: l, r)

/-- Strip one carriage return immediately preceding the line end
(`\r\n` tolerance, spec §4.5). -/
def stripCR (l : List Nat) : List Nat :=
  if l.getLast? = some 13 then l.dropLast else l

/-- Split a header line at its first colon into name and value. -/
def splitColon : List Nat → Option (List Nat × List Nat)
  | [] => none
  | b :: rest =>
    if b = 58 then some ([], rest)
    else
      match splitColon rest with
      | none => none
      | some (n, v) => some (b :: n, v)

/-- STOMP 1.2 escaping of one octet of a header name or value (spec §4.3). -/
def escByte (b : Nat) : List Nat :=
  if b = 10 then [92, 110]
  else if b = 13 then [92, 114]
  else if b = 58 then [92, 99]
  else if b = 92 then [92, 92]
  else [b]

/-- STOMP 1.2 escaping of a header name or value. -/
def escape (l : List Nat) : List Nat :=
  (l.map escByte).flatten

/-- STOMP 1.2 unescaping; an unrecognised escape sequence is a parse error
(`none`), per spec §4.3. -/
def unescape : List Nat → Option (List Nat)
  | [] => some []
  | b :: rest =>
    if b = 92 then
      match rest with
      | [] => none
      | c :: rest2 =>
        if c = 110 then (unescape rest2).map (10 :: ·)
        else if c = 114 then (unescape rest2).map (13 :: ·)
        else if c = 99 then (unescape rest2).map (58 :: ·)
        else if c = 92 then (unescape rest2).map (92 :: ·)
        else none
    else (unescape rest).map (b :: ·)

/-- Split a byte list on a separator octet. Always returns at least one part. -/
def splitOnByte (sep : Nat) : List Nat → List (List Nat)
  | [] => [[]]
  | b :: rest =>
    if b = sep then [] :: splitOnByte sep rest
    else
      match splitOnByte sep rest with
      | [] => [[b]]
      | p :: ps => (b :: p) :: ps

/-- Join byte lists with a separator octet. -/
def intercalateByte (sep : Nat) : List (List Nat) → List Nat
  | [] => []
  | [x] => x
  | x :: y :: xs => x ++ sep :: intercalateByte sep (y :: xs)

/-- Decimal digits with explicit recursion depth; the depth is only a bound
on the number of divisions, exceeded never when it starts at `n + 1`. -/
def natDigitsAux : Nat → Nat → List Nat
  | 0, _ => []
  | fuel + 1, n =>
    if n < 10 then [48 + n]
    else natDigitsAux fuel (n / 10) ++ [48 + n % 10]

/-- Decimal digits of a natural number, as ASCII octets. -/
def natDigits (n : Nat) : List Nat :=
  natDigitsAux (n + 1) n

/-- Accumulating decimal reader over ASCII digit octets. -/
def parseNatAux (acc : Nat) : List Nat → Option Nat
  | [] => some acc
  | b :: rest =>
    if 48 ≤ b ∧ b ≤ 57 then parseNatAux (acc * 10 + (b - 48)) rest
    else none

/-- Parse a non-empty run of ASCII digits as a natural number. -/
def parseNat (l : List Nat) : Option Nat :=
  if l = [] then none else parseNatAux 0 l

/-- STOMP protocol versions (the `StompVersion` enum). -/
inductive StompVersion
  | V1_0
  | V1_1
  | V1_2
deriving DecidableEq

/-- Acknowledgement modes (the `AckType` enum). -/
inductive AckType
  | Auto
  | Client
  | ClientIndividual
deriving DecidableEq

/-- A heart-beat header value: supplied and expected intervals in
milliseconds (the `HeartBeatIntervalls` struct). -/
structure HeartBeatIntervalls where
  supplied : Nat
  expected : Nat
deriving DecidableEq

/-- Wire text of one protocol version tag. -/
def renderVersion : StompVersion → List Nat
  | .V1_0 => strBytes "1.0"
  | .V1_1 => strBytes "1.1"
  | .V1_2 => strBytes "1.2"

/-- Parse one protocol version tag. -/
def parseVersion (l : List Nat) : Option StompVersion :=
  if l = strBytes "1.0" then some .V1_0
  else if l = strBytes "1.1" then some .V1_1
  else if l = strBytes "1.2" then some .V1_2
  else none

/-- Wire text of an `accept-version` list: comma-separated version tags. -/
def renderAcceptVersion (vs : List StompVersion) : List Nat :=
  intercalateByte 44 (vs.map renderVersion)

/-- Apply a fallible parse to every element, failing when any element
fails. -/
def mapOption (f : α → Option β) : List α → Option (List β)
  | [] => some []
  | a :: as =>
    match f a, mapOption f as with
    | some b, some bs => some (b :: bs)
    | _, _ => none

/-- Parse an `accept-version` list. Succeeds only when every comma-separated
part is a version tag, hence only on non-empty lists. -/
def parseAcceptVersion (l : List Nat) : Option (List StompVersion) :=
  mapOption parseVersion (splitOnByte 44 l)

/-- Wire text of a `heart-beat` value: `supplied,expected`. -/
def renderHeartBeat (h : HeartBeatIntervalls) : List Nat :=
  natDigits h.supplied ++ 44 :: natDigits h.expected

/-- Parse a `heart-beat` value. -/
def parseHeartBeat (l : List Nat) : Option HeartBeatIntervalls :=
  match splitOnByte 44 l with
  | [a, b] =>
    match parseNat a, parseNat b with
    | some s, some e => some ⟨s, e⟩
    | _, _ => none
  | _ => none

/-- Wire text of an `ack` value. -/
def renderAck : AckType → List Nat
  | .Auto => strBytes "auto"
  | .Client => strBytes "client"
  | .ClientIndividual => strBytes "client-individual"

/-- Parse an `ack` value. -/
def parseAck (l : List Nat) : Option AckType :=
  if l = strBytes "auto" then some .Auto
  else if l = strBytes "client" then some .Client
  else if l = strBytes "client-individual" then some .ClientIndividual
  else none

/-! ## Frame values

One structure per frame command, with the fields (required first, then
optional, then custom headers and body) exactly as declared by the `frames!`
schema in `src/model/frames/mod.rs`.  String-valued headers are byte lists;
typed headers use the decoded representations above.  Frames whose schema
permits a body store it as a byte list: the generated constructors take the
body positionally (see `ErrorFrame::new` and the `MessageFrame::new` call in
the tests), so a constructed frame always carries a body, possibly empty. -/

/-- Header list produced by the wire-level header scan: (name, value) pairs
in input order, unescaped. -/
abbrev Headers := List (List Nat × List Nat)

/-- ABORT: required `transaction`. -/
structure AbortFrame where
  transaction : List Nat
deriving DecidableEq

/-- ACK: required `id`, `transaction`; optional `receipt`. -/
structure AckFrame where
  id : List Nat
  transaction : List Nat
  receipt : Option (List Nat)
deriving DecidableEq

/-- BEGIN: required `transaction`; optional `receipt`. -/
structure BeginFrame where
  transaction : List Nat
  receipt : Option (List Nat)
deriving DecidableEq

/-- COMMIT: required `transaction`; optional `receipt`. -/
structure CommitFrame where
  transaction : List Nat
  receipt : Option (List Nat)
deriving DecidableEq

/-- CONNECT (alias STOMP): required `host`, `accept-version`; optional
`heart-beat` (default `0,0`), `login`, `passcode`. -/
structure ConnectFrame where
  host : List Nat
  accept_version : List StompVersion
  heartbeat : Option HeartBeatIntervalls
  login : Option (List Nat)
  passcode : Option (List Nat)
deriving DecidableEq

/-- DISCONNECT: required `receipt`. -/
structure DisconnectFrame where
  receipt : List Nat
deriving DecidableEq

/-- NACK: required `id`, `transaction`; optional `receipt`. -/
structure NackFrame where
  id : List Nat
  transaction : List Nat
  receipt : Option (List Nat)
deriving DecidableEq

/-- SEND: required `destination`; optional `content-type`, `content-length`,
`transaction`, `receipt`; custom headers and body permitted. -/
structure SendFrame where
  destination : List Nat
  content_type : Option (List Nat)
  content_length : Option Nat
  transaction : Option (List Nat)
  receipt : Option (List Nat)
  custom : Headers
  body : List Nat
deriving DecidableEq

/-- SUBSCRIBE: required `destination`, `id`; optional `ack` (default `auto`),
`receipt`; custom headers permitted, no body. -/
structure SubscribeFrame where
  destination : List Nat
  id : List Nat
  ack_type : Option AckType
  receipt : Option (List Nat)
  custom : Headers
deriving DecidableEq

/-- UNSUBSCRIBE: required `id`; optional `receipt`. -/
structure UnsubscribeFrame where
  id : List Nat
  receipt : Option (List Nat)
deriving DecidableEq

/-- CONNECTED: required `version`; optional `heart-beat`, `session`,
`server`. -/
structure ConnectedFrame where
  version : StompVersion
  heartbeat : Option HeartBeatIntervalls
  session : Option (List Nat)
  server : Option (List Nat)
deriving DecidableEq

/-- RECEIPT: required `receipt-id`. -/
structure ReceiptFrame where
  receipt_id : List Nat
deriving DecidableEq

/-- ERROR: no known headers; custom headers and body permitted. -/
structure ErrorFrame where
  custom : Headers
  body : List Nat
deriving DecidableEq

/-- MESSAGE: required `message-id`, `destination`, `subscription`; optional
`content-type`, `content-length`; body permitted. -/
structure MessageFrame where
  message_id : List Nat
  destination : List Nat
  subscription : List Nat
  content_type : Option (List Nat)
  content_length : Option Nat
  body : List Nat
deriving DecidableEq

/-- Propositional equality of `Except` results is decidable componentwise. -/
instance exceptDecEq {ε α : Type} [DecidableEq ε] [DecidableEq α] :
    DecidableEq (Except ε α) := fun x y =>
  match x, y with
  | .error a, .error b =>
    if h : a = b then .isTrue (by rw [h])
    else .isFalse (by intro hc; cases hc; exact h rfl)
  | .ok a, .ok b =>
    if h : a = b then .isTrue (by rw [h])
    else .isFalse (by intro hc; cases hc; exact h rfl)
  | .error _, .ok _ => .isFalse (by intro hc; cases hc)
  | .ok _, .error _ => .isFalse (by intro hc; cases hc)

/-- The tagged union of client frames (`ClientFrame` in the source). -/
inductive ClientFrame
  | abort (f : AbortFrame)
  | ack (f : AckFrame)
  | begin (f : BeginFrame)
  | commit (f : CommitFrame)
  | connect (f : ConnectFrame)
  | disconnect (f : DisconnectFrame)
  | nack (f : NackFrame)
  | send (f : SendFrame)
  | subscribe (f : SubscribeFrame)
  | unsubscribe (f : UnsubscribeFrame)
deriving DecidableEq

/-- The tagged union of server frames (`ServerFrame` in the source). -/
inductive ServerFrame
  | connected (f : ConnectedFrame)
  | receipt (f : ReceiptFrame)
  | error (f : ErrorFrame)
  | message (f : MessageFrame)
deriving DecidableEq

/-- `ErrorFrame::from_message`: an ERROR frame whose body is the UTF-8 bytes
of the given text and whose custom-header list is empty
(`ErrorFrame::new(Vec::new(), message.as_bytes().to_owned())`). -/
def ErrorFrame.from_message (message : String) : ErrorFrame :=
  ⟨[], strBytes message⟩

/-! ## Renderer (spec §4.6) -/

/-- A present optional header as a singleton pair list; an absent one renders
to nothing. -/
def optPair (nm : String) : Option (List Nat) → Headers
  | none => []
  | some v => [(strBytes nm, v)]

/-- One rendered header line: `name:value` followed by LF, with STOMP
escaping applied unless the command disables it. -/
def renderHeader (esc : Bool) (nm v : List Nat) : List Nat :=
  (if esc then escape nm else nm) ++ 58 :: (if esc then escape v else v) ++ [10]

/-- The rendered header section for a pair list. -/
def renderHeaders (esc : Bool) (ps : Headers) : List Nat :=
  (ps.map (fun p => renderHeader esc p.1 p.2)).flatten

/-- A full rendered frame: command line, header lines, blank line, tail
(body plus terminating NUL). -/
def renderWire (cmd : List Nat) (esc : Bool) (ps : Headers) (tail : List Nat) :
    List Nat :=
  cmd ++ 10 :: (renderHeaders esc ps ++ 10 :: tail)

/-- Header pairs of a CONNECT frame, in schema order. -/
def connectPairs (f : ConnectFrame) : Headers :=
  (strBytes "host", f.host) ::
    (strBytes "accept-version", renderAcceptVersion f.accept_version) ::
    (optPair "heart-beat" (f.heartbeat.map renderHeartBeat) ++
      (optPair "login" f.login ++ optPair "passcode" f.passcode))

/-- Header pairs of a SEND frame, in schema order, then custom headers in
insertion order. -/
def sendPairs (f : SendFrame) : Headers :=
  (strBytes "destination", f.destination) ::
    (optPair "content-type" f.content_type ++
      (optPair "content-length" (f.content_length.map natDigits) ++
        (optPair "transaction" f.transaction ++
          (optPair "receipt" f.receipt ++ f.custom))))

/-- Header pairs of a SUBSCRIBE frame. -/
def subscribePairs (f : SubscribeFrame) : Headers :=
  (strBytes "destination", f.destination) :: (strBytes "id", f.id) ::
    (optPair "ack" (f.ack_type.map renderAck) ++
      (optPair "receipt" f.receipt ++ f.custom))

/-- Header pairs of a CONNECTED frame. -/
def connectedPairs (f : ConnectedFrame) : Headers :=
  (strBytes "version", renderVersion f.version) ::
    (optPair "heart-beat" (f.heartbeat.map renderHeartBeat) ++
      (optPair "session" f.session ++ optPair "server" f.server))

/-- Header pairs of a MESSAGE frame. -/
def messagePairs (f : MessageFrame) : Headers :=
  (strBytes "message-id", f.message_id) ::
    (strBytes "destination", f.destination) ::
    (strBytes "subscription", f.subscription) ::
    (optPair "content-type" f.content_type ++
      optPair "content-length" (f.content_length.map natDigits))

/-- Render a client frame to wire bytes (the `TryInto<Vec<u8>>` conversion).
`CONNECT` and `STOMP` always render as `CONNECT`; escaping is disabled for
that command only (spec §4.3, §4.6). -/
def renderClient : ClientFrame → List Nat
  | .abort f => renderWire (strBytes "ABORT") true [(strBytes "transaction", f.transaction)] [0]
  | .ack f =>
    renderWire (strBytes "ACK") true
      ((strBytes "id", f.id) :: (strBytes "transaction", f.transaction) ::
        optPair "receipt" f.receipt) [0]
  | .begin f =>
    renderWire (strBytes "BEGIN") true
      ((strBytes "transaction", f.transaction) :: optPair "receipt" f.receipt) [0]
  | .commit f =>
    renderWire (strBytes "COMMIT") true
      ((strBytes "transaction", f.transaction) :: optPair "receipt" f.receipt) [0]
  | .connect f => renderWire (strBytes "CONNECT") false (connectPairs f) [0]
  | .disconnect f =>
    renderWire (strBytes "DISCONNECT") true [(strBytes "receipt", f.receipt)] [0]
  | .nack f =>
    renderWire (strBytes "NACK") true
      ((strBytes "id", f.id) :: (strBytes "transaction", f.transaction) ::
        optPair "receipt" f.receipt) [0]
  | .send f => renderWire (strBytes "SEND") true (sendPairs f) (f.body ++ [0])
  | .subscribe f => renderWire (strBytes "SUBSCRIBE") true (subscribePairs f) [0]
  | .unsubscribe f =>
    renderWire (strBytes "UNSUBSCRIBE") true
      ((strBytes "id", f.id) :: optPair "receipt" f.receipt) [0]

/-- Render a server frame to wire bytes.  Escaping is disabled for
`CONNECTED` only. -/
def renderServer : ServerFrame → List Nat
  | .connected f => renderWire (strBytes "CONNECTED") false (connectedPairs f) [0]
  | .receipt f =>
    renderWire (strBytes "RECEIPT") true [(strBytes "receipt-id", f.receipt_id)] [0]
  | .error f => renderWire (strBytes "ERROR") true f.custom (f.body ++ [0])
  | .message f => renderWire (strBytes "MESSAGE") true (messagePairs f) (f.body ++ [0])

/-! ## Parser (spec §4.5) -/

/-- The parse errors surfaced to the caller (spec §7). -/
inductive ParseError
  | unknownCommand
  | malformedHeader
  | missingHeader
  | invalidHeaderValue
  | invalidBody
  | wrongDirection
deriving DecidableEq

/-- Value of a header name in a scanned header list: the value of the first
occurrence (duplicate policy, spec §4.5 step 2), `none` if absent. -/
def findHdr (nm : List Nat) : Headers → Option (List Nat)
  | [] => none
  | p :: hs => if p.1 = nm then some p.2 else findHdr nm hs

/-- Typed read of an optional known header: `none` means the header is
present but its value fails the typed parse; `some none` means absent;
`some (some a)` means present and parsed. -/
def optField (pf : List Nat → Option α) (nm : List Nat) (hs : Headers) :
    Option (Option α) :=
  match findHdr nm hs with
  | none => some none
  | some v => (pf v).map some

/-- The headers not claimed by the schema's known set, every occurrence
preserved in input order (spec §4.5 steps 2 and 5). -/
def customOf (known : List (List Nat)) (hs : Headers) : Headers :=
  hs.filter (fun p => !(known.contains p.1))

/-- Body extraction (spec §4.5 step 6).  With `content-length: n`, exactly
`n` octets are taken and the following octet must be NUL.  Without it, the
body is everything up to (but not including) the terminating NUL octet that
ends the buffer: the repository's `parses_binary_send_frame` test feeds a
content-length-free SEND whose body both starts with and contains NUL
octets and expects all eight body octets back, so the frame terminator is
the final octet, not the first NUL. -/
def extractBody : Option Nat → List Nat → Option (List Nat)
  | some n, region =>
    if (region.drop n).head? = some 0 then some (region.take n) else none
  | none, region =>
    if region.getLast? = some 0 then some region.dropLast else none

/-- Check of the body region for a frame whose schema forbids a body: the
region must consist of exactly the terminating NUL (a non-empty body is a
parse error, spec §4.5 step 6). -/
def noBody (region : List Nat) : Bool :=
  region == [0]

/-- Splitting off a line strictly shrinks the buffer. -/
theorem takeLine_length :
    ∀ {input l r : List Nat}, takeLine input = some (l, r) →
      r.length < input.length := by
  intro input
  induction input with
  | nil => intro l r h2; simp [takeLine] at h2
  | cons b rest ih =>
    intro l r h2
    simp only [takeLine] at h2
    split at h2
    · cases h2
      simp
    · rcases htl : takeLine rest with _ | ⟨l2, r2⟩ <;> rw [htl] at h2
      · cases h2
      · cases h2
        have := ih htl
        simp only [List.length_cons]
        omega

/-- Header-section scan with explicit recursion depth.  Every line consumes
at least its LF, so a depth of the buffer length is never exceeded. -/
def parseHeadersAux (esc : Bool) : Nat → List Nat →
    Except ParseError (Headers × List Nat)
  | 0, _ => .error .invalidBody
  | fuel + 1, input =>
    match takeLine input with
    | none => .error .invalidBody
    | some (line, rest) =>
      let line2 := stripCR line
      if line2 = [] then .ok ([], rest)
      else
        match splitColon line2 with
        | none => .error .malformedHeader
        | some (nm, v) =>
          match (if esc then unescape nm else some nm),
                (if esc then unescape v else some v) with
          | some nm2, some v2 =>
            match parseHeadersAux esc fuel rest with
            | .ok (ps, region) => .ok ((nm2, v2) :: ps, region)
            | .error e => .error e
          | _, _ => .error .malformedHeader

/-- Scan the header section: lines up to the first empty line, each split at
its first colon and unescaped when `esc` is set.  Returns the header pairs
and the remaining bytes after the blank line. -/
def parseHeaders (esc : Bool) (input : List Nat) :
    Except ParseError (Headers × List Nat) :=
  parseHeadersAux esc input.length input

/-- The recursion depth of the header scan is irrelevant as long as it is at
least the buffer length. -/
theorem parseHeadersAux_irrel (esc : Bool) :
    ∀ (fuel fuel2 : Nat) (input : List Nat), input.length ≤ fuel →
      input.length ≤ fuel2 →
      parseHeadersAux esc fuel input = parseHeadersAux esc fuel2 input := by
  intro fuel
  induction fuel with
  | zero =>
    intro fuel2 input h1 h2
    have : input = [] := by
      cases input with
      | nil => rfl
      | cons a l => simp at h1
    subst this
    cases fuel2 with
    | zero => rfl
    | succ k => simp [parseHeadersAux, takeLine]
  | succ fuel ih =>
    intro fuel2 input h1 h2
    cases fuel2 with
    | zero =>
      have : input = [] := by
        cases input with
        | nil => rfl
        | cons a l => simp at h2
      subst this
      simp [parseHeadersAux, takeLine]
    | succ k =>
      simp only [parseHeadersAux]
      rcases htl : takeLine input with _ | ⟨line, rest⟩
      · rfl
      · have hlen := takeLine_length htl
        have h3 : rest.length ≤ fuel := by omega
        have h4 : rest.length ≤ k := by omega
        simp only [ih k rest h3 h4]

/-- The defining one-step unfolding of the header scan. -/
theorem parseHeaders_eq (esc : Bool) (input : List Nat) :
    parseHeaders esc input =
      match takeLine input with
      | none => .error .invalidBody
      | some (line, rest) =>
        let line2 := stripCR line
        if line2 = [] then .ok ([], rest)
        else
          match splitColon line2 with
          | none => .error .malformedHeader
          | some (nm, v) =>
            match (if esc then unescape nm else some nm),
                  (if esc then unescape v else some v) with
            | some nm2, some v2 =>
              match parseHeaders esc rest with
              | .ok (ps, region) => .ok ((nm2, v2) :: ps, region)
              | .error e => .error e
            | _, _ => .error .malformedHeader := by
  unfold parseHeaders
  cases hinput : input with
  | nil => simp [parseHeadersAux, takeLine]
  | cons b l =>
    simp only [List.length_cons, parseHeadersAux]
    rcases htl : takeLine (b :: l) with _ | ⟨line, rest⟩
    · rfl
    · have hlen := takeLine_length htl
      simp only [parseHeadersAux_irrel esc l.length rest.length rest
        (by simp at hlen; omega) (Nat.le_refl _)]

/-- Run a frame-specific field extractor after the shared header scan. -/
def runFrame (esc : Bool) (k : Headers → List Nat → Except ParseError α)
    (rest : List Nat) : Except ParseError α :=
  match parseHeaders esc rest with
  | .ok (hs, region) => k hs region
  | .error e => .error e

/-- Known header names of SEND. -/
def knownSend : List (List Nat) :=
  [strBytes "destination", strBytes "content-type", strBytes "content-length",
   strBytes "transaction", strBytes "receipt"]

/-- Known header names of SUBSCRIBE. -/
def knownSubscribe : List (List Nat) :=
  [strBytes "destination", strBytes "id", strBytes "ack", strBytes "receipt"]

/-- Field extraction for ABORT. -/
def parseAbortFields (hs : Headers) (region : List Nat) :
    Except ParseError ClientFrame :=
  if noBody region then
    match findHdr (strBytes "transaction") hs with
    | none => .error .missingHeader
    | some tr => .ok (.abort ⟨tr⟩)
  else .error .invalidBody

/-- Field extraction for ACK. -/
def parseAckFields (hs : Headers) (region : List Nat) :
    Except ParseError ClientFrame :=
  if noBody region then
    match findHdr (strBytes "id") hs, findHdr (strBytes "transaction") hs with
    | some i, some tr => .ok (.ack ⟨i, tr, findHdr (strBytes "receipt") hs⟩)
    | _, _ => .error .missingHeader
  else .error .invalidBody

/-- Field extraction for BEGIN. -/
def parseBeginFields (hs : Headers) (region : List Nat) :
    Except ParseError ClientFrame :=
  if noBody region then
    match findHdr (strBytes "transaction") hs with
    | none => .error .missingHeader
    | some tr => .ok (.begin ⟨tr, findHdr (strBytes "receipt") hs⟩)
  else .error .invalidBody

/-- Field extraction for COMMIT. -/
def parseCommitFields (hs : Headers) (region : List Nat) :
    Except ParseError ClientFrame :=
  if noBody region then
    match findHdr (strBytes "transaction") hs with
    | none => .error .missingHeader
    | some tr => .ok (.commit ⟨tr, findHdr (strBytes "receipt") hs⟩)
  else .error .invalidBody

/-- Field extraction for CONNECT / STOMP. -/
def parseConnectFields (hs : Headers) (region : List Nat) :
    Except ParseError ClientFrame :=
  if noBody region then
    match findHdr (strBytes "host") hs with
    | none => .error .missingHeader
    | some host =>
      match findHdr (strBytes "accept-version") hs with
      | none => .error .missingHeader
      | some avRaw =>
        match parseAcceptVersion avRaw with
        | none => .error .invalidHeaderValue
        | some av =>
          match optField parseHeartBeat (strBytes "heart-beat") hs with
          | none => .error .invalidHeaderValue
          | some hb =>
            .ok (.connect ⟨host, av, hb, findHdr (strBytes "login") hs,
              findHdr (strBytes "passcode") hs⟩)
  else .error .invalidBody

/-- Field extraction for DISCONNECT. -/
def parseDisconnectFields (hs : Headers) (region : List Nat) :
    Except ParseError ClientFrame :=
  if noBody region then
    match findHdr (strBytes "receipt") hs with
    | none => .error .missingHeader
    | some r => .ok (.disconnect ⟨r⟩)
  else .error .invalidBody

/-- Field extraction for NACK. -/
def parseNackFields (hs : Headers) (region : List Nat) :
    Except ParseError ClientFrame :=
  if noBody region then
    match findHdr (strBytes "id") hs, findHdr (strBytes "transaction") hs with
    | some i, some tr => .ok (.nack ⟨i, tr, findHdr (strBytes "receipt") hs⟩)
    | _, _ => .error .missingHeader
  else .error .invalidBody

/-- Field extraction for SEND. -/
def parseSendFields (hs : Headers) (region : List Nat) :
    Except ParseError ClientFrame :=
  match findHdr (strBytes "destination") hs with
  | none => .error .missingHeader
  | some dest =>
    match optField parseNat (strBytes "content-length") hs with
    | none => .error .invalidHeaderValue
    | some cl =>
      match extractBody cl region with
      | none => .error .invalidBody
      | some body =>
        .ok (.send ⟨dest, findHdr (strBytes "content-type") hs, cl,
          findHdr (strBytes "transaction") hs, findHdr (strBytes "receipt") hs,
          customOf knownSend hs, body⟩)

/-- Field extraction for SUBSCRIBE. -/
def parseSubscribeFields (hs : Headers) (region : List Nat) :
    Except ParseError ClientFrame :=
  if noBody region then
    match findHdr (strBytes "destination") hs, findHdr (strBytes "id") hs with
    | some dest, some i =>
      match optField parseAck (strBytes "ack") hs with
      | none => .error .invalidHeaderValue
      | some ack =>
        .ok (.subscribe ⟨dest, i, ack, findHdr (strBytes "receipt") hs,
          customOf knownSubscribe hs⟩)
    | _, _ => .error .missingHeader
  else .error .invalidBody

/-- Field extraction for UNSUBSCRIBE. -/
def parseUnsubscribeFields (hs : Headers) (region : List Nat) :
    Except ParseError ClientFrame :=
  if noBody region then
    match findHdr (strBytes "id") hs with
    | none => .error .missingHeader
    | some i => .ok (.unsubscribe ⟨i, findHdr (strBytes "receipt") hs⟩)
  else .error .invalidBody

/-- The server command tokens, used for the `WrongDirection` check. -/
def serverCommands : List (List Nat) :=
  [strBytes "CONNECTED", strBytes "RECEIPT", strBytes "ERROR", strBytes "MESSAGE"]

/-- The client command tokens (including the STOMP alias). -/
def clientCommands : List (List Nat) :=
  [strBytes "ABORT", strBytes "ACK", strBytes "BEGIN", strBytes "COMMIT",
   strBytes "CONNECT", strBytes "STOMP", strBytes "DISCONNECT", strBytes "NACK",
   strBytes "SEND", strBytes "SUBSCRIBE", strBytes "UNSUBSCRIBE"]

/-- Dispatch a client command line (spec §4.5 step 1).  `CONNECT` and its
alias `STOMP` map to the same variant; escaping is disabled for them. -/
def parseClientCmd (cmd : List Nat) (rest : List Nat) :
    Except ParseError ClientFrame :=
  if cmd = strBytes "CONNECT" ∨ cmd = strBytes "STOMP" then
    runFrame false parseConnectFields rest
  else if cmd = strBytes "ABORT" then runFrame true parseAbortFields rest
  else if cmd = strBytes "ACK" then runFrame true parseAckFields rest
  else if cmd = strBytes "BEGIN" then runFrame true parseBeginFields rest
  else if cmd = strBytes "COMMIT" then runFrame true parseCommitFields rest
  else if cmd = strBytes "DISCONNECT" then runFrame true parseDisconnectFields rest
  else if cmd = strBytes "NACK" then runFrame true parseNackFields rest
  else if cmd = strBytes "SEND" then runFrame true parseSendFields rest
  else if cmd = strBytes "SUBSCRIBE" then runFrame true parseSubscribeFields rest
  else if cmd = strBytes "UNSUBSCRIBE" then runFrame true parseUnsubscribeFields rest
  else if serverCommands.contains cmd then .error .wrongDirection
  else .error .unknownCommand

/-- The client parse entry point (`ClientFrame::try_from`). -/
def parseClient (input : List Nat) : Except ParseError ClientFrame :=
  match takeLine input with
  | none => .error .invalidBody
  | some (cmdLine, rest) => parseClientCmd (stripCR cmdLine) rest

/-- Field extraction for CONNECTED. -/
def parseConnectedFields (hs : Headers) (region : List Nat) :
    Except ParseError ServerFrame :=
  if noBody region then
    match findHdr (strBytes "version") hs with
    | none => .error .missingHeader
    | some vRaw =>
      match parseVersion vRaw with
      | none => .error .invalidHeaderValue
      | some v =>
        match optField parseHeartBeat (strBytes "heart-beat") hs with
        | none => .error .invalidHeaderValue
        | some hb =>
          .ok (.connected ⟨v, hb, findHdr (strBytes "session") hs,
            findHdr (strBytes "server") hs⟩)
  else .error .invalidBody

/-- Field extraction for RECEIPT. -/
def parseReceiptFields (hs : Headers) (region : List Nat) :
    Except ParseError ServerFrame :=
  if noBody region then
    match findHdr (strBytes "receipt-id") hs with
    | none => .error .missingHeader
    | some r => .ok (.receipt ⟨r⟩)
  else .error .invalidBody

/-- Field extraction for ERROR.  The schema declares no known headers, so
every header is custom, and no `content-length` guides body extraction. -/
def parseErrorFields (hs : Headers) (region : List Nat) :
    Except ParseError ServerFrame :=
  match extractBody none region with
  | none => .error .invalidBody
  | some body => .ok (.error ⟨customOf [] hs, body⟩)

/-- Field extraction for MESSAGE. -/
def parseMessageFields (hs : Headers) (region : List Nat) :
    Except ParseError ServerFrame :=
  match findHdr (strBytes "message-id") hs, findHdr (strBytes "destination") hs,
        findHdr (strBytes "subscription") hs with
  | some mid, some dest, some sub =>
    match optField parseNat (strBytes "content-length") hs with
    | none => .error .invalidHeaderValue
    | some cl =>
      match extractBody cl region with
      | none => .error .invalidBody
      | some body =>
        .ok (.message ⟨mid, dest, sub, findHdr (strBytes "content-type") hs,
          cl, body⟩)
  | _, _, _ => .error .missingHeader

/-- Dispatch a server command line; escaping is disabled for `CONNECTED`. -/
def parseServerCmd (cmd : List Nat) (rest : List Nat) :
    Except ParseError ServerFrame :=
  if cmd = strBytes "CONNECTED" then runFrame false parseConnectedFields rest
  else if cmd = strBytes "RECEIPT" then runFrame true parseReceiptFields rest
  else if cmd = strBytes "ERROR" then runFrame true parseErrorFields rest
  else if cmd = strBytes "MESSAGE" then runFrame true parseMessageFields rest
  else if clientCommands.contains cmd then .error .wrongDirection
  else .error .unknownCommand

/-- The server parse entry point (`ServerFrame::try_from`). -/
def parseServer (input : List Nat) : Except ParseError ServerFrame :=
  match takeLine input with
  | none => .error .invalidBody
  | some (cmdLine, rest) => parseServerCmd (stripCR cmdLine) rest

/-! ## Byte-level lemmas -/

/-- A line free of LF followed by LF splits back off exactly. -/
theorem takeLine_append {l : List Nat} (r : List Nat) (h : 10 ∉ l) :
    takeLine (l ++ 10 :: r) = some (l, r) := by
  induction l with
  | nil => simp [takeLine]
  | cons b bs ih =>
    have hb : b ≠ 10 := by intro hc; exact h (by simp [hc])
    have hbs : 10 ∉ bs := by intro hc; exact h (by simp [hc])
    simp only [List.cons_append, takeLine, List.append_eq, if_neg hb]
    rw [ih hbs]

/-- Stripping the optional CR is the identity on CR-free lines. -/
theorem stripCR_eq {l : List Nat} (h : 13 ∉ l) : stripCR l = l := by
  unfold stripCR
  rcases hg : l.getLast? with _ | b
  · simp
  · have hmem : b ∈ l.getLast? := by simp [hg]
    obtain ⟨hne, heq⟩ := List.mem_getLast?_eq_getLast hmem
    have hbl : b ∈ l := by rw [heq]; exact List.getLast_mem hne
    have hb13 : b ≠ 13 := fun hc => h (hc ▸ hbl)
    simp [hb13]

/-- A name free of colons splits back off exactly at the first colon. -/
theorem splitColon_append {a : List Nat} (b : List Nat) (h : 58 ∉ a) :
    splitColon (a ++ 58 :: b) = some (a, b) := by
  induction a with
  | nil => simp [splitColon]
  | cons c cs ih =>
    have hc : c ≠ 58 := by intro hc; exact h (by simp [hc])
    have hcs : 58 ∉ cs := by intro hc2; exact h (by simp [hc2])
    simp only [List.cons_append, splitColon, List.append_eq, if_neg hc]
    rw [ih hcs]

/-- Escaped octets avoid the delimiters LF, CR and colon. -/
theorem mem_escByte {c b : Nat} (h : c ∈ escByte b) :
    c ≠ 10 ∧ c ≠ 13 ∧ c ≠ 58 := by
  unfold escByte at h
  by_cases h10 : b = 10 <;> by_cases h13 : b = 13 <;> by_cases h58 : b = 58 <;>
    by_cases h92 : b = 92 <;> simp_all <;> omega

/-- Escaped strings avoid the delimiters LF, CR and colon. -/
theorem mem_escape {c : Nat} {l : List Nat} (h : c ∈ escape l) :
    c ≠ 10 ∧ c ≠ 13 ∧ c ≠ 58 := by
  unfold escape at h
  rw [List.mem_flatten] at h
  obtain ⟨part, hpart, hc⟩ := h
  rw [List.mem_map] at hpart
  obtain ⟨b, _, hb⟩ := hpart
  exact mem_escByte (hb ▸ hc)

/-- Unescaping inverts escaping. -/
theorem unescape_escape (l : List Nat) : unescape (escape l) = some l := by
  induction l with
  | nil => simp [escape, unescape]
  | cons b bs ih =>
    have hesc : escape (b :: bs) = escByte b ++ escape bs := by
      simp [escape]
    rw [hesc]
    unfold escByte
    by_cases h10 : b = 10
    · subst h10; simp [unescape, ih]
    · by_cases h13 : b = 13
      · subst h13; simp [unescape, ih]
      · by_cases h58 : b = 58
        · subst h58; simp [unescape, ih]
        · by_cases h92 : b = 92
          · subst h92; simp [unescape, ih]
          · simp only [if_neg h10, if_neg h13, if_neg h58, if_neg h92,
              List.singleton_append]
            unfold unescape
            rw [if_neg h92, ih]
            rfl

/-- The digit recursion is depth-irrelevant once the depth exceeds `n`. -/
theorem natDigitsAux_irrel :
    ∀ (n fuel fuel2 : Nat), n < fuel → n < fuel2 →
      natDigitsAux fuel n = natDigitsAux fuel2 n := by
  intro n
  induction n using Nat.strong_induction_on with
  | _ n ih =>
    intro fuel fuel2 h1 h2
    cases fuel with
    | zero => omega
    | succ f =>
      cases fuel2 with
      | zero => omega
      | succ f2 =>
        simp only [natDigitsAux]
        by_cases hn : n < 10
        · simp [hn]
        · have hdiv : n / 10 < n := Nat.div_lt_self (by omega) (by omega)
          rw [if_neg hn, if_neg hn, ih (n / 10) hdiv f f2 (by omega) (by omega)]

/-- The defining unfolding of `natDigits`. -/
theorem natDigits_eq (n : Nat) :
    natDigits n =
      if n < 10 then [48 + n] else natDigits (n / 10) ++ [48 + n % 10] := by
  by_cases hn : n < 10
  · rw [if_pos hn]
    unfold natDigits
    simp only [natDigitsAux]
    rw [if_pos hn]
  · rw [if_neg hn]
    have hdiv : n / 10 < n := Nat.div_lt_self (by omega) (by omega)
    have hstep : natDigitsAux (n + 1) n =
        if n < 10 then [48 + n] else natDigitsAux n (n / 10) ++ [48 + n % 10] :=
      rfl
    unfold natDigits
    rw [hstep, if_neg hn,
      natDigitsAux_irrel (n / 10) n (n / 10 + 1) (by omega) (by omega)]

/-- Rendered digits are ASCII digits. -/
theorem mem_natDigits {c n : Nat} (h : c ∈ natDigits n) : 48 ≤ c ∧ c ≤ 57 := by
  induction n using Nat.strong_induction_on with
  | _ n ih =>
    rw [natDigits_eq] at h
    by_cases hn : n < 10
    · rw [if_pos hn] at h
      simp at h
      omega
    · rw [if_neg hn] at h
      rcases List.mem_append.mp h with h2 | h2
      · exact ih (n / 10) (Nat.div_lt_self (by omega) (by omega)) h2
      · have : c = 48 + n % 10 := by simpa using h2
        have := Nat.mod_lt n (show 0 < 10 by omega)
        omega

/-- The digit reader distributes over concatenation. -/
theorem parseNatAux_append (acc : Nat) (l1 l2 : List Nat) :
    parseNatAux acc (l1 ++ l2) =
      match parseNatAux acc l1 with
      | some a => parseNatAux a l2
      | none => none := by
  induction l1 generalizing acc with
  | nil => simp [parseNatAux]
  | cons b bs ih =>
    simp only [List.cons_append, List.append_eq, parseNatAux]
    by_cases hb : 48 ≤ b ∧ b ≤ 57
    · rw [if_pos hb, if_pos hb, ih]
    · rw [if_neg hb, if_neg hb]

/-- Reading back the rendered digits of `n` appends `n` to the accumulated
value shifted by the digit count. -/
theorem parseNatAux_natDigits (n : Nat) :
    ∀ acc, parseNatAux acc (natDigits n) =
      some (acc * 10 ^ (natDigits n).length + n) := by
  induction n using Nat.strong_induction_on with
  | _ n ih =>
    intro acc
    rw [natDigits_eq]
    by_cases hn : n < 10
    · rw [if_pos hn]
      simp only [parseNatAux, List.length_cons, List.length_nil]
      rw [if_pos (by omega)]
      simp [parseNatAux]
    · rw [if_neg hn]
      have hdiv : n / 10 < n := Nat.div_lt_self (by omega) (by omega)
      rw [parseNatAux_append, ih (n / 10) hdiv acc]
      have hmod := Nat.mod_lt n (show 0 < 10 by omega)
      simp only [parseNatAux]
      rw [if_pos (by omega)]
      simp only [parseNatAux, List.length_append, List.length_cons,
        List.length_nil]
      congr 1
      have : acc * 10 ^ ((natDigits (n / 10)).length + (0 + 1)) =
          acc * 10 ^ (natDigits (n / 10)).length * 10 := by ring
      rw [this]
      have hnd : n = 10 * (n / 10) + n % 10 := (Nat.div_add_mod n 10).symm
      omega

/-- Digits are never empty. -/
theorem natDigits_ne_nil (n : Nat) : natDigits n ≠ [] := by
  rw [natDigits_eq]
  by_cases hn : n < 10 <;> simp [hn]

/-- Reading back the rendered digits of `n` recovers `n`. -/
theorem parseNat_natDigits (n : Nat) : parseNat (natDigits n) = some n := by
  unfold parseNat
  rw [if_neg (natDigits_ne_nil n), parseNatAux_natDigits n 0]
  simp

/-- Splitting after a separator-free prefix and a separator yields that
prefix as the first part. -/
theorem splitOnByte_append {sep : Nat} {a : List Nat} (b : List Nat)
    (h : sep ∉ a) :
    splitOnByte sep (a ++ sep :: b) = a :: splitOnByte sep b := by
  induction a with
  | nil => simp [splitOnByte]
  | cons c cs ih =>
    have hc : c ≠ sep := by intro hc; exact h (by simp [hc])
    have hcs : sep ∉ cs := by intro hc2; exact h (by simp [hc2])
    simp only [List.cons_append, splitOnByte, List.append_eq, if_neg hc]
    rw [ih hcs]

/-- A separator-free list is a single part. -/
theorem splitOnByte_of_not_mem {sep : Nat} {a : List Nat} (h : sep ∉ a) :
    splitOnByte sep a = [a] := by
  induction a with
  | nil => simp [splitOnByte]
  | cons c cs ih =>
    have hc : c ≠ sep := by intro hc; exact h (by simp [hc])
    have hcs : sep ∉ cs := by intro hc2; exact h (by simp [hc2])
    simp only [splitOnByte, if_neg hc]
    rw [ih hcs]

/-- Splitting inverts joining for non-empty lists of separator-free parts. -/
theorem splitOnByte_intercalateByte {sep : Nat} :
    ∀ {parts : List (List Nat)}, parts ≠ [] →
      (∀ p ∈ parts, sep ∉ p) →
      splitOnByte sep (intercalateByte sep parts) = parts := by
  intro parts
  induction parts with
  | nil => intro h; exact absurd rfl h
  | cons x xs ih =>
    intro _ hfree
    cases xs with
    | nil =>
      simp only [intercalateByte]
      exact splitOnByte_of_not_mem (hfree x (by simp))
    | cons y ys =>
      simp only [intercalateByte]
      rw [splitOnByte_append _ (hfree x (by simp))]
      rw [ih (by simp) (fun p hp => hfree p (by simp [hp]))]

/-! ## Typed header-value round trips -/

/-- Parsing inverts rendering for version tags. -/
theorem parseVersion_renderVersion (v : StompVersion) :
    parseVersion (renderVersion v) = some v := by
  cases v <;> decide

/-- Rendered version tags contain no comma and no delimiter octets. -/
theorem mem_renderVersion {c : Nat} {v : StompVersion}
    (h : c ∈ renderVersion v) : c ≠ 44 ∧ c ≠ 10 ∧ c ≠ 13 ∧ c ≠ 58 := by
  cases v with
  | V1_0 =>
    rw [show renderVersion .V1_0 = [49, 46, 48] from by decide] at h
    simp at h
    rcases h with h | h | h <;> omega
  | V1_1 =>
    rw [show renderVersion .V1_1 = [49, 46, 49] from by decide] at h
    simp at h
    rcases h with h | h | h <;> omega
  | V1_2 =>
    rw [show renderVersion .V1_2 = [49, 46, 50] from by decide] at h
    simp at h
    rcases h with h | h | h <;> omega

/-- `mapOption` inverts an element-wise right inverse. -/
theorem mapOption_map {f : α → Option β} {g : β → α}
    (hfg : ∀ b, f (g b) = some b) (l : List β) :
    mapOption f (l.map g) = some l := by
  induction l with
  | nil => simp [mapOption]
  | cons b bs ih => simp only [List.map_cons, mapOption, hfg b, ih]

/-- Parsing inverts rendering for non-empty `accept-version` lists. -/
theorem parseAcceptVersion_render {vs : List StompVersion} (h : vs ≠ []) :
    parseAcceptVersion (renderAcceptVersion vs) = some vs := by
  unfold parseAcceptVersion renderAcceptVersion
  rw [splitOnByte_intercalateByte (by simpa using h)
    (by intro p hp hc
        rw [List.mem_map] at hp
        obtain ⟨v, _, hv⟩ := hp
        exact (mem_renderVersion (hv ▸ hc)).1 rfl)]
  exact mapOption_map parseVersion_renderVersion vs

/-- Rendered heart-beat text: digits, one comma, digits. -/
theorem parseHeartBeat_render (h : HeartBeatIntervalls) :
    parseHeartBeat (renderHeartBeat h) = some h := by
  unfold parseHeartBeat renderHeartBeat
  have h1 : (44 : Nat) ∉ natDigits h.supplied := by
    intro hc; have := mem_natDigits hc; omega
  have h2 : (44 : Nat) ∉ natDigits h.expected := by
    intro hc; have := mem_natDigits hc; omega
  rw [splitOnByte_append _ h1, splitOnByte_of_not_mem h2]
  simp only [parseNat_natDigits]

/-- Parsing inverts rendering for `ack` values. -/
theorem parseAck_renderAck (a : AckType) : parseAck (renderAck a) = some a := by
  cases a <;> decide

/-- Rendered heart-beat text contains no delimiter octets. -/
theorem mem_renderHeartBeat {c : Nat} {h : HeartBeatIntervalls}
    (hm : c ∈ renderHeartBeat h) : c ≠ 10 ∧ c ≠ 13 ∧ c ≠ 58 := by
  unfold renderHeartBeat at hm
  rcases List.mem_append.mp hm with h2 | h2
  · have := mem_natDigits h2; omega
  · rcases List.mem_cons.mp h2 with h3 | h3
    · omega
    · have := mem_natDigits h3; omega

/-- Rendered accept-version text contains no delimiter octets. -/
theorem mem_renderAcceptVersion {c : Nat} {vs : List StompVersion}
    (hm : c ∈ renderAcceptVersion vs) : c ≠ 10 ∧ c ≠ 13 ∧ c ≠ 58 := by
  unfold renderAcceptVersion at hm
  induction vs with
  | nil => simp [intercalateByte] at hm
  | cons v vs ih =>
    cases vs with
    | nil =>
      simp only [List.map_cons, List.map_nil, intercalateByte] at hm
      have := mem_renderVersion hm
      omega
    | cons w ws =>
      simp only [List.map_cons, intercalateByte] at hm
      rcases List.mem_append.mp hm with h2 | h2
      · have := mem_renderVersion h2; omega
      · rcases List.mem_cons.mp h2 with h3 | h3
        · omega
        · exact ih (by simpa [intercalateByte] using h3)

/-! ## Header-section round trip -/

/-- What a pass-through (unescaped) header pair must satisfy to survive the
wire: no LF or CR anywhere, and no colon in the name.  Escaped pairs need no
such condition since escaping removes all delimiters. -/
abbrev rawPairOK (p : List Nat × List Nat) : Prop :=
  (∀ c ∈ p.1, c ≠ 10 ∧ c ≠ 13 ∧ c ≠ 58) ∧ (∀ c ∈ p.2, c ≠ 10 ∧ c ≠ 13)

/-- Scanning one rendered header line prepends its pair to the scan of the
remainder. -/
theorem parseHeaders_line (esc : Bool) {nm v nmR vR : List Nat}
    (tail2 : List Nat)
    (h10 : 10 ∉ nmR ++ 58 :: vR) (h13 : 13 ∉ nmR ++ 58 :: vR)
    (h58 : 58 ∉ nmR)
    (hnm : (if esc then unescape nmR else some nmR) = some nm)
    (hv : (if esc then unescape vR else some vR) = some v) :
    parseHeaders esc ((nmR ++ 58 :: vR) ++ 10 :: tail2) =
      match parseHeaders esc tail2 with
      | .ok (ps, region) => .ok ((nm, v) :: ps, region)
      | .error e => .error e := by
  rw [parseHeaders_eq, takeLine_append _ h10]
  simp only [stripCR_eq h13]
  rw [if_neg (by simp)]
  rw [splitColon_append _ h58]
  simp only [hnm, hv]

/-- The escaped header line of any pair scans back to that pair. -/
theorem parseHeaders_line_esc (nm v : List Nat) (tail2 : List Nat) :
    parseHeaders true ((escape nm ++ 58 :: escape v) ++ 10 :: tail2) =
      match parseHeaders true tail2 with
      | .ok (ps, region) => .ok ((nm, v) :: ps, region)
      | .error e => .error e := by
  have h10 : 10 ∉ escape nm ++ 58 :: escape v := by
    intro hc
    rcases List.mem_append.mp hc with h2 | h2
    · exact (mem_escape h2).1 rfl
    · rcases List.mem_cons.mp h2 with h3 | h3
      · omega
      · exact (mem_escape h3).1 rfl
  have h13 : 13 ∉ escape nm ++ 58 :: escape v := by
    intro hc
    rcases List.mem_append.mp hc with h2 | h2
    · exact (mem_escape h2).2.1 rfl
    · rcases List.mem_cons.mp h2 with h3 | h3
      · omega
      · exact (mem_escape h3).2.1 rfl
  have h58 : 58 ∉ escape nm := fun hc => (mem_escape hc).2.2 rfl
  exact parseHeaders_line true tail2 h10 h13 h58
    (by rw [if_pos rfl, unescape_escape]) (by rw [if_pos rfl, unescape_escape])

/-- The pass-through header line of a delimiter-free pair scans back to that
pair. -/
theorem parseHeaders_line_raw {nm v : List Nat} (tail2 : List Nat)
    (hok : rawPairOK (nm, v)) :
    parseHeaders false ((nm ++ 58 :: v) ++ 10 :: tail2) =
      match parseHeaders false tail2 with
      | .ok (ps, region) => .ok ((nm, v) :: ps, region)
      | .error e => .error e := by
  obtain ⟨hnmF, hvF⟩ := hok
  have h10 : 10 ∉ nm ++ 58 :: v := by
    intro hc
    rcases List.mem_append.mp hc with h2 | h2
    · exact (hnmF 10 h2).1 rfl
    · rcases List.mem_cons.mp h2 with h3 | h3
      · omega
      · exact (hvF 10 h3).1 rfl
  have h13 : 13 ∉ nm ++ 58 :: v := by
    intro hc
    rcases List.mem_append.mp hc with h2 | h2
    · exact (hnmF 13 h2).2.1 rfl
    · rcases List.mem_cons.mp h2 with h3 | h3
      · omega
      · exact (hvF 13 h3).2 rfl
  have h58 : 58 ∉ nm := fun hc => (hnmF 58 hc).2.2 rfl
  exact parseHeaders_line false tail2 h10 h13 h58 rfl rfl

/-- Scanning the rendered header section recovers exactly the rendered pairs
and the bytes after the blank line.  For the escaping commands this is
unconditional; for the pass-through commands each pair must be free of the
line delimiters. -/
theorem parseHeaders_render (esc : Bool) (ps : Headers) (region : List Nat)
    (hok : esc = true ∨ ∀ p ∈ ps, rawPairOK p) :
    parseHeaders esc (renderHeaders esc ps ++ 10 :: region) =
      .ok (ps, region) := by
  induction ps with
  | nil =>
    rw [parseHeaders_eq]
    simp only [renderHeaders, List.map_nil, List.flatten_nil, List.nil_append]
    rw [show takeLine (10 :: region) = some ([], region) from by simp [takeLine]]
    simp [stripCR]
  | cons p ps ih =>
    obtain ⟨nm, v⟩ := p
    have hok2 : esc = true ∨ ∀ q ∈ ps, rawPairOK q := by
      rcases hok with h | h
      · exact Or.inl h
      · exact Or.inr (fun q hq => h q (List.mem_cons_of_mem _ hq))
    cases esc with
    | true =>
      have hshape : renderHeaders true ((nm, v) :: ps) ++ 10 :: region =
          (escape nm ++ 58 :: escape v)
            ++ 10 :: (renderHeaders true ps ++ 10 :: region) := by
        simp [renderHeaders, renderHeader, List.append_assoc]
      rw [hshape, parseHeaders_line_esc, ih hok2]
    | false =>
      rcases hok with h | h
      · cases h
      · have hshape : renderHeaders false ((nm, v) :: ps) ++ 10 :: region =
            (nm ++ 58 :: v)
              ++ 10 :: (renderHeaders false ps ++ 10 :: region) := by
          simp [renderHeaders, renderHeader, List.append_assoc]
        rw [hshape, parseHeaders_line_raw _ (h (nm, v) (List.mem_cons_self _ _)),
          ih hok2]

/-! ## Header lookup and body lemmas -/

/-- Lookup hits the head when the names agree. -/
theorem findHdr_cons_self (nm v : List Nat) (hs : Headers) :
    findHdr nm ((nm, v) :: hs) = some v := by
  simp [findHdr]

/-- Lookup skips a head with a different name. -/
theorem findHdr_cons_ne {nm nm' : List Nat} (v : List Nat) (hs : Headers)
    (h : nm' ≠ nm) : findHdr nm ((nm', v) :: hs) = findHdr nm hs := by
  simp [findHdr, h]

/-- Lookup misses entirely when no pair carries the name. -/
theorem findHdr_eq_none {nm : List Nat} {hs : Headers}
    (h : ∀ p ∈ hs, p.1 ≠ nm) : findHdr nm hs = none := by
  induction hs with
  | nil => rfl
  | cons p ps ih =>
    obtain ⟨nm', v⟩ := p
    rw [findHdr_cons_ne v ps (h (nm', v) (List.mem_cons_self _ _))]
    exact ih (fun q hq => h q (List.mem_cons_of_mem _ hq))

/-- A head with a known name contributes nothing to the custom list. -/
theorem customOf_cons_known {known : List (List Nat)} {nm : List Nat}
    (v : List Nat) (hs : Headers) (h : known.contains nm) :
    customOf known ((nm, v) :: hs) = customOf known hs := by
  have h2 : nm ∈ known := by simpa using h
  simp [customOf, h2]

/-- A head with an unknown name is kept in the custom list. -/
theorem customOf_cons_unknown {known : List (List Nat)} {nm : List Nat}
    (v : List Nat) (hs : Headers) (h : ¬known.contains nm) :
    customOf known ((nm, v) :: hs) = (nm, v) :: customOf known hs := by
  have h2 : nm ∉ known := by simpa using h
  simp [customOf, h2]

/-- A list of pairs with unknown names is its own custom list. -/
theorem customOf_eq_self {known : List (List Nat)} {hs : Headers}
    (h : ∀ p ∈ hs, ¬known.contains p.1) : customOf known hs = hs := by
  unfold customOf
  rw [List.filter_eq_self]
  intro p hp
  simpa using h p hp

/-- Without content-length, the body is everything before the final NUL. -/
theorem extractBody_none (b : List Nat) :
    extractBody none (b ++ [0]) = some b := by
  simp only [extractBody]
  rw [if_pos (by simp), List.dropLast_concat]

/-- With content-length matching the body, extraction returns the body. -/
theorem extractBody_some (b : List Nat) :
    extractBody (some b.length) (b ++ [0]) = some b := by
  simp only [extractBody]
  rw [List.drop_left, List.take_left]
  simp

/-- A successful content-length extraction returns that many octets. -/
theorem extractBody_some_length {n : Nat} {region b : List Nat}
    (h : extractBody (some n) region = some b) : b.length = n := by
  simp only [extractBody] at h
  by_cases hc : (region.drop n).head? = some 0
  · rw [if_pos hc] at h
    have hb : b = region.take n := by
      injection h with h2
      exact h2.symm
    have hlen : n < region.length := by
      by_contra hn
      rw [List.drop_eq_nil_of_le (by omega)] at hc
      simp at hc
    rw [hb, List.length_take]
    omega
  · rw [if_neg hc] at h
    cases h

/-! ## Well-formed frames

The legal-range conditions under which a frame renders to a wire form that
parses back losslessly: values of the non-escaping commands must not contain
the line delimiters, `accept-version` must be non-empty (spec §3), a
supplied `content-length` must match the body length (spec §3, §8), and
custom-header names must lie outside the frame's known set (spec §3). -/

/-- A pass-through header value must avoid LF and CR. -/
abbrev ValueOK (l : List Nat) : Prop := ∀ c ∈ l, c ≠ 10 ∧ c ≠ 13

/-- An absent optional value is vacuously in range. -/
def OptValueOK : Option (List Nat) → Prop
  | none => True
  | some v => ValueOK v

/-- Legal-range condition for CONNECT frames. -/
abbrev WfConnect (f : ConnectFrame) : Prop :=
  ValueOK f.host ∧ f.accept_version ≠ [] ∧ OptValueOK f.login ∧
    OptValueOK f.passcode

/-- Legal-range condition for CONNECTED frames. -/
abbrev WfConnected (f : ConnectedFrame) : Prop :=
  OptValueOK f.session ∧ OptValueOK f.server

/-- Legal-range condition for SEND frames. -/
abbrev WfSend (f : SendFrame) : Prop :=
  (∀ p ∈ f.custom, ¬knownSend.contains p.1) ∧
    (f.content_length = none ∨ f.content_length = some f.body.length)

/-- Legal-range condition for SUBSCRIBE frames. -/
abbrev WfSubscribe (f : SubscribeFrame) : Prop :=
  ∀ p ∈ f.custom, ¬knownSubscribe.contains p.1

/-- Legal-range condition for MESSAGE frames. -/
abbrev WfMessage (f : MessageFrame) : Prop :=
  f.content_length = none ∨ f.content_length = some f.body.length

/-- Legal-range condition for a client frame. -/
def wfClient : ClientFrame → Prop
  | .connect f => WfConnect f
  | .send f => WfSend f
  | .subscribe f => WfSubscribe f
  | _ => True

/-- Legal-range condition for a server frame. -/
def wfServer : ServerFrame → Prop
  | .connected f => WfConnected f
  | .message f => WfMessage f
  | _ => True

/-! ## Round trip: dispatch reductions -/

/-- Reading a rendered wire buffer isolates the command line. -/
theorem parseClient_wire (cmd : List Nat) (esc : Bool) (ps : Headers)
    (tail : List Nat) (h10 : 10 ∉ cmd) :
    parseClient (renderWire cmd esc ps tail) =
      parseClientCmd (stripCR cmd) (renderHeaders esc ps ++ 10 :: tail) := by
  unfold renderWire parseClient
  rw [takeLine_append _ h10]

/-- Reading a rendered wire buffer isolates the command line (server side). -/
theorem parseServer_wire (cmd : List Nat) (esc : Bool) (ps : Headers)
    (tail : List Nat) (h10 : 10 ∉ cmd) :
    parseServer (renderWire cmd esc ps tail) =
      parseServerCmd (stripCR cmd) (renderHeaders esc ps ++ 10 :: tail) := by
  unfold renderWire parseServer
  rw [takeLine_append _ h10]

/-- CONNECT dispatches to the CONNECT field extractor without escaping. -/
theorem parseClientCmd_connect (r : List Nat) :
    parseClientCmd (strBytes "CONNECT") r = runFrame false parseConnectFields r := by
  unfold parseClientCmd
  rw [if_pos (Or.inl rfl)]

/-- STOMP dispatches to the CONNECT field extractor without escaping. -/
theorem parseClientCmd_stomp (r : List Nat) :
    parseClientCmd (strBytes "STOMP") r = runFrame false parseConnectFields r := by
  unfold parseClientCmd
  rw [if_pos (Or.inr rfl)]

/-- ABORT dispatches to its field extractor. -/
theorem parseClientCmd_abort (r : List Nat) :
    parseClientCmd (strBytes "ABORT") r = runFrame true parseAbortFields r := by
  unfold parseClientCmd
  rw [if_neg (by decide), if_pos rfl]

/-- ACK dispatches to its field extractor. -/
theorem parseClientCmd_ack (r : List Nat) :
    parseClientCmd (strBytes "ACK") r = runFrame true parseAckFields r := by
  unfold parseClientCmd
  rw [if_neg (by decide), if_neg (by decide), if_pos rfl]

/-- BEGIN dispatches to its field extractor. -/
theorem parseClientCmd_begin (r : List Nat) :
    parseClientCmd (strBytes "BEGIN") r = runFrame true parseBeginFields r := by
  unfold parseClientCmd
  rw [if_neg (by decide), if_neg (by decide), if_neg (by decide), if_pos rfl]

/-- COMMIT dispatches to its field extractor. -/
theorem parseClientCmd_commit (r : List Nat) :
    parseClientCmd (strBytes "COMMIT") r = runFrame true parseCommitFields r := by
  unfold parseClientCmd
  rw [if_neg (by decide), if_neg (by decide), if_neg (by decide),
    if_neg (by decide), if_pos rfl]

/-- DISCONNECT dispatches to its field extractor. -/
theorem parseClientCmd_disconnect (r : List Nat) :
    parseClientCmd (strBytes "DISCONNECT") r =
      runFrame true parseDisconnectFields r := by
  unfold parseClientCmd
  rw [if_neg (by decide), if_neg (by decide), if_neg (by decide),
    if_neg (by decide), if_neg (by decide), if_pos rfl]

/-- NACK dispatches to its field extractor. -/
theorem parseClientCmd_nack (r : List Nat) :
    parseClientCmd (strBytes "NACK") r = runFrame true parseNackFields r := by
  unfold parseClientCmd
  rw [if_neg (by decide), if_neg (by decide), if_neg (by decide),
    if_neg (by decide), if_neg (by decide), if_neg (by decide), if_pos rfl]

/-- SEND dispatches to its field extractor. -/
theorem parseClientCmd_send (r : List Nat) :
    parseClientCmd (strBytes "SEND") r = runFrame true parseSendFields r := by
  unfold parseClientCmd
  rw [if_neg (by decide), if_neg (by decide), if_neg (by decide),
    if_neg (by decide), if_neg (by decide), if_neg (by decide),
    if_neg (by decide), if_pos rfl]

/-- SUBSCRIBE dispatches to its field extractor. -/
theorem parseClientCmd_subscribe (r : List Nat) :
    parseClientCmd (strBytes "SUBSCRIBE") r =
      runFrame true parseSubscribeFields r := by
  unfold parseClientCmd
  rw [if_neg (by decide), if_neg (by decide), if_neg (by decide),
    if_neg (by decide), if_neg (by decide), if_neg (by decide),
    if_neg (by decide), if_neg (by decide), if_pos rfl]

/-- UNSUBSCRIBE dispatches to its field extractor. -/
theorem parseClientCmd_unsubscribe (r : List Nat) :
    parseClientCmd (strBytes "UNSUBSCRIBE") r =
      runFrame true parseUnsubscribeFields r := by
  unfold parseClientCmd
  rw [if_neg (by decide), if_neg (by decide), if_neg (by decide),
    if_neg (by decide), if_neg (by decide), if_neg (by decide),
    if_neg (by decide), if_neg (by decide), if_neg (by decide), if_pos rfl]

/-- CONNECTED dispatches to its field extractor without escaping. -/
theorem parseServerCmd_connected (r : List Nat) :
    parseServerCmd (strBytes "CONNECTED") r =
      runFrame false parseConnectedFields r := by
  unfold parseServerCmd
  rw [if_pos rfl]

/-- RECEIPT dispatches to its field extractor. -/
theorem parseServerCmd_receipt (r : List Nat) :
    parseServerCmd (strBytes "RECEIPT") r = runFrame true parseReceiptFields r := by
  unfold parseServerCmd
  rw [if_neg (by decide), if_pos rfl]

/-- ERROR dispatches to its field extractor. -/
theorem parseServerCmd_error (r : List Nat) :
    parseServerCmd (strBytes "ERROR") r = runFrame true parseErrorFields r := by
  unfold parseServerCmd
  rw [if_neg (by decide), if_neg (by decide), if_pos rfl]

/-- MESSAGE dispatches to its field extractor. -/
theorem parseServerCmd_message (r : List Nat) :
    parseServerCmd (strBytes "MESSAGE") r = runFrame true parseMessageFields r := by
  unfold parseServerCmd
  rw [if_neg (by decide), if_neg (by decide), if_neg (by decide), if_pos rfl]

/-! ## Round trip: per-frame lemmas -/

/-- A pass-through header name must avoid LF, CR and the colon. -/
abbrev NameOK (l : List Nat) : Prop := ∀ c ∈ l, c ≠ 10 ∧ c ≠ 13 ∧ c ≠ 58

/-- Delimiter-freedom is preserved by consing a checked pair. -/
theorem rawOK_cons {nm v : List Nat} {hs : Headers} (h1 : NameOK nm)
    (h2 : ValueOK v) (h3 : ∀ p ∈ hs, rawPairOK p) :
    ∀ p ∈ (nm, v) :: hs, rawPairOK p := by
  intro p hp
  rcases List.mem_cons.mp hp with rfl | hp2
  · exact ⟨h1, h2⟩
  · exact h3 p hp2

/-- Delimiter-freedom is preserved by appending. -/
theorem rawOK_append {ps qs : Headers} (h1 : ∀ p ∈ ps, rawPairOK p)
    (h2 : ∀ p ∈ qs, rawPairOK p) : ∀ p ∈ ps ++ qs, rawPairOK p := by
  intro p hp
  rcases List.mem_append.mp hp with h3 | h3
  · exact h1 p h3
  · exact h2 p h3

/-- The empty pair list is trivially delimiter-free. -/
theorem rawOK_nil : ∀ p ∈ ([] : Headers), rawPairOK p := by
  intro p hp
  cases hp

/-- A checked optional pair is delimiter-free. -/
theorem rawOK_optPair (nm : String) (o : Option (List Nat))
    (h1 : NameOK (strBytes nm)) (h2 : OptValueOK o) :
    ∀ p ∈ optPair nm o, rawPairOK p := by
  cases o with
  | none => exact rawOK_nil
  | some v => exact rawOK_cons h1 h2 rawOK_nil

/-- Rendered accept-version text is a legal pass-through value. -/
theorem valueOK_renderAcceptVersion (vs : List StompVersion) :
    ValueOK (renderAcceptVersion vs) := fun _ hc =>
  ⟨(mem_renderAcceptVersion hc).1, (mem_renderAcceptVersion hc).2.1⟩

/-- Rendered version text is a legal pass-through value. -/
theorem valueOK_renderVersion (v : StompVersion) :
    ValueOK (renderVersion v) := fun _ hc =>
  ⟨(mem_renderVersion hc).2.1, (mem_renderVersion hc).2.2.1⟩

/-- Rendered heart-beat text is a legal pass-through value. -/
theorem optValueOK_map_heartBeat (o : Option HeartBeatIntervalls) :
    OptValueOK (o.map renderHeartBeat) := by
  cases o with
  | none => trivial
  | some hb =>
    intro c hc
    exact ⟨(mem_renderHeartBeat hc).1, (mem_renderHeartBeat hc).2.1⟩

/-- The CONNECT header pairs are delimiter-free for a well-formed frame. -/
theorem connectPairs_rawOK {f : ConnectFrame} (hwf : WfConnect f) :
    ∀ p ∈ connectPairs f, rawPairOK p := by
  obtain ⟨hhost, _, hlogin, hpass⟩ := hwf
  unfold connectPairs
  exact rawOK_cons (by decide) hhost
    (rawOK_cons (by decide) (valueOK_renderAcceptVersion _)
      (rawOK_append
        (rawOK_optPair "heart-beat" _ (by decide) (optValueOK_map_heartBeat _))
        (rawOK_append (rawOK_optPair "login" _ (by decide) hlogin)
          (rawOK_optPair "passcode" _ (by decide) hpass))))

/-- The CONNECTED header pairs are delimiter-free for a well-formed frame. -/
theorem connectedPairs_rawOK {f : ConnectedFrame} (hwf : WfConnected f) :
    ∀ p ∈ connectedPairs f, rawPairOK p := by
  obtain ⟨hsession, hserver⟩ := hwf
  unfold connectedPairs
  exact rawOK_cons (by decide) (valueOK_renderVersion _)
    (rawOK_append
      (rawOK_optPair "heart-beat" _ (by decide) (optValueOK_map_heartBeat _))
      (rawOK_append (rawOK_optPair "session" _ (by decide) hsession)
        (rawOK_optPair "server" _ (by decide) hserver)))

/-- CONNECT frames round-trip. -/
theorem roundtrip_connect (f : ConnectFrame) (hwf : WfConnect f) :
    parseClient (renderClient (.connect f)) = .ok (.connect f) := by
  have hraw := connectPairs_rawOK hwf
  obtain ⟨-, hav, -, -⟩ := hwf
  show parseClient (renderWire (strBytes "CONNECT") false (connectPairs f) [0]) = _
  rw [parseClient_wire _ _ _ _ (by decide),
    show stripCR (strBytes "CONNECT") = strBytes "CONNECT" from by decide,
    parseClientCmd_connect]
  unfold runFrame
  rw [parseHeaders_render false (connectPairs f) [0] (Or.inr hraw)]
  rcases f with ⟨host, av, hb, login, pass⟩
  cases hb <;> cases login <;> cases pass <;>
    simp +decide [parseConnectFields, noBody, connectPairs, optPair, findHdr,
      optField, parseAcceptVersion_render hav, parseHeartBeat_render]

/-- SEND frames round-trip. -/
theorem roundtrip_send (f : SendFrame) (hwf : WfSend f) :
    parseClient (renderClient (.send f)) = .ok (.send f) := by
  show parseClient
    (renderWire (strBytes "SEND") true (sendPairs f) (f.body ++ [0])) = _
  rw [parseClient_wire _ _ _ _ (by decide),
    show stripCR (strBytes "SEND") = strBytes "SEND" from by decide,
    parseClientCmd_send]
  unfold runFrame
  rw [parseHeaders_render true (sendPairs f) (f.body ++ [0]) (Or.inl rfl)]
  rcases f with ⟨dest, ct, cl, tr, rc, cus, body⟩
  obtain ⟨hcustom, hclor0⟩ := hwf
  have hclor : cl = none ∨ cl = some body.length := hclor0
  have hne : ∀ nm : List Nat, knownSend.contains nm → findHdr nm cus = none := by
    intro nm hnm
    exact findHdr_eq_none (fun p hp hc => hcustom p hp (by rw [hc]; exact hnm))
  have hcusf : cus.filter (fun p => !(knownSend.contains p.1)) = cus := by
    have := customOf_eq_self hcustom
    unfold customOf at this
    exact this
  rcases hclor with rfl | rfl <;> cases ct <;> cases tr <;> cases rc <;>
    (simp +decide [parseSendFields, sendPairs, optPair, findHdr, optField,
      customOf, hcusf, hne (strBytes "content-type") (by decide),
      hne (strBytes "content-length") (by decide),
      hne (strBytes "transaction") (by decide),
      hne (strBytes "receipt") (by decide),
      parseNat_natDigits, extractBody_none, extractBody_some] <;>
    · intro a b hab
      have h2 := hcustom (a, b) hab
      simp at h2
      exact h2)

/-- SUBSCRIBE frames round-trip. -/
theorem roundtrip_subscribe (f : SubscribeFrame) (hwf : WfSubscribe f) :
    parseClient (renderClient (.subscribe f)) = .ok (.subscribe f) := by
  show parseClient
    (renderWire (strBytes "SUBSCRIBE") true (subscribePairs f) [0]) = _
  rw [parseClient_wire _ _ _ _ (by decide),
    show stripCR (strBytes "SUBSCRIBE") = strBytes "SUBSCRIBE" from by decide,
    parseClientCmd_subscribe]
  unfold runFrame
  rw [parseHeaders_render true (subscribePairs f) [0] (Or.inl rfl)]
  rcases f with ⟨dest, i, ack, rc, cus⟩
  have hcustom : ∀ p ∈ cus, ¬knownSubscribe.contains p.1 := hwf
  have hne : ∀ nm : List Nat, knownSubscribe.contains nm →
      findHdr nm cus = none := by
    intro nm hnm
    exact findHdr_eq_none (fun p hp hc => hcustom p hp (by rw [hc]; exact hnm))
  have hcusf : cus.filter (fun p => !(knownSubscribe.contains p.1)) = cus := by
    have := customOf_eq_self hcustom
    unfold customOf at this
    exact this
  cases ack <;> cases rc <;>
    (simp +decide [parseSubscribeFields, noBody, subscribePairs, optPair,
      findHdr, optField, customOf, hcusf,
      hne (strBytes "ack") (by decide), hne (strBytes "receipt") (by decide),
      parseAck_renderAck] <;>
    · intro a b hab
      have h2 := hcustom (a, b) hab
      simp at h2
      exact h2)

/-- ABORT frames round-trip. -/
theorem roundtrip_abort (f : AbortFrame) :
    parseClient (renderClient (.abort f)) = .ok (.abort f) := by
  show parseClient (renderWire (strBytes "ABORT") true
    [(strBytes "transaction", f.transaction)] [0]) = _
  rw [parseClient_wire _ _ _ _ (by decide),
    show stripCR (strBytes "ABORT") = strBytes "ABORT" from by decide,
    parseClientCmd_abort]
  unfold runFrame
  rw [parseHeaders_render true _ [0] (Or.inl rfl)]
  rcases f with ⟨tr⟩
  simp +decide [parseAbortFields, noBody, findHdr]

/-- ACK frames round-trip. -/
theorem roundtrip_ack (f : AckFrame) :
    parseClient (renderClient (.ack f)) = .ok (.ack f) := by
  show parseClient (renderWire (strBytes "ACK") true
    ((strBytes "id", f.id) :: (strBytes "transaction", f.transaction) ::
      optPair "receipt" f.receipt) [0]) = _
  rw [parseClient_wire _ _ _ _ (by decide),
    show stripCR (strBytes "ACK") = strBytes "ACK" from by decide,
    parseClientCmd_ack]
  unfold runFrame
  rw [parseHeaders_render true _ [0] (Or.inl rfl)]
  rcases f with ⟨i, tr, rc⟩
  cases rc <;> simp +decide [parseAckFields, noBody, optPair, findHdr]

/-- BEGIN frames round-trip. -/
theorem roundtrip_begin (f : BeginFrame) :
    parseClient (renderClient (.begin f)) = .ok (.begin f) := by
  show parseClient (renderWire (strBytes "BEGIN") true
    ((strBytes "transaction", f.transaction) :: optPair "receipt" f.receipt)
    [0]) = _
  rw [parseClient_wire _ _ _ _ (by decide),
    show stripCR (strBytes "BEGIN") = strBytes "BEGIN" from by decide,
    parseClientCmd_begin]
  unfold runFrame
  rw [parseHeaders_render true _ [0] (Or.inl rfl)]
  rcases f with ⟨tr, rc⟩
  cases rc <;> simp +decide [parseBeginFields, noBody, optPair, findHdr]

/-- COMMIT frames round-trip. -/
theorem roundtrip_commit (f : CommitFrame) :
    parseClient (renderClient (.commit f)) = .ok (.commit f) := by
  show parseClient (renderWire (strBytes "COMMIT") true
    ((strBytes "transaction", f.transaction) :: optPair "receipt" f.receipt)
    [0]) = _
  rw [parseClient_wire _ _ _ _ (by decide),
    show stripCR (strBytes "COMMIT") = strBytes "COMMIT" from by decide,
    parseClientCmd_commit]
  unfold runFrame
  rw [parseHeaders_render true _ [0] (Or.inl rfl)]
  rcases f with ⟨tr, rc⟩
  cases rc <;> simp +decide [parseCommitFields, noBody, optPair, findHdr]

/-- DISCONNECT frames round-trip. -/
theorem roundtrip_disconnect (f : DisconnectFrame) :
    parseClient (renderClient (.disconnect f)) = .ok (.disconnect f) := by
  show parseClient (renderWire (strBytes "DISCONNECT") true
    [(strBytes "receipt", f.receipt)] [0]) = _
  rw [parseClient_wire _ _ _ _ (by decide),
    show stripCR (strBytes "DISCONNECT") = strBytes "DISCONNECT" from by decide,
    parseClientCmd_disconnect]
  unfold runFrame
  rw [parseHeaders_render true _ [0] (Or.inl rfl)]
  rcases f with ⟨rc⟩
  simp +decide [parseDisconnectFields, noBody, findHdr]

/-- NACK frames round-trip. -/
theorem roundtrip_nack (f : NackFrame) :
    parseClient (renderClient (.nack f)) = .ok (.nack f) := by
  show parseClient (renderWire (strBytes "NACK") true
    ((strBytes "id", f.id) :: (strBytes "transaction", f.transaction) ::
      optPair "receipt" f.receipt) [0]) = _
  rw [parseClient_wire _ _ _ _ (by decide),
    show stripCR (strBytes "NACK") = strBytes "NACK" from by decide,
    parseClientCmd_nack]
  unfold runFrame
  rw [parseHeaders_render true _ [0] (Or.inl rfl)]
  rcases f with ⟨i, tr, rc⟩
  cases rc <;> simp +decide [parseNackFields, noBody, optPair, findHdr]

/-- UNSUBSCRIBE frames round-trip. -/
theorem roundtrip_unsubscribe (f : UnsubscribeFrame) :
    parseClient (renderClient (.unsubscribe f)) = .ok (.unsubscribe f) := by
  show parseClient (renderWire (strBytes "UNSUBSCRIBE") true
    ((strBytes "id", f.id) :: optPair "receipt" f.receipt) [0]) = _
  rw [parseClient_wire _ _ _ _ (by decide),
    show stripCR (strBytes "UNSUBSCRIBE") = strBytes "UNSUBSCRIBE" from
      by decide,
    parseClientCmd_unsubscribe]
  unfold runFrame
  rw [parseHeaders_render true _ [0] (Or.inl rfl)]
  rcases f with ⟨i, rc⟩
  cases rc <;> simp +decide [parseUnsubscribeFields, noBody, optPair, findHdr]

/-- CONNECTED frames round-trip. -/
theorem roundtrip_connected (f : ConnectedFrame) (hwf : WfConnected f) :
    parseServer (renderServer (.connected f)) = .ok (.connected f) := by
  have hraw := connectedPairs_rawOK hwf
  show parseServer
    (renderWire (strBytes "CONNECTED") false (connectedPairs f) [0]) = _
  rw [parseServer_wire _ _ _ _ (by decide),
    show stripCR (strBytes "CONNECTED") = strBytes "CONNECTED" from by decide,
    parseServerCmd_connected]
  unfold runFrame
  rw [parseHeaders_render false (connectedPairs f) [0] (Or.inr hraw)]
  rcases f with ⟨v, hb, sess, srv⟩
  cases hb <;> cases sess <;> cases srv <;>
    simp +decide [parseConnectedFields, noBody, connectedPairs, optPair,
      findHdr, optField, parseVersion_renderVersion, parseHeartBeat_render]

/-- RECEIPT frames round-trip. -/
theorem roundtrip_receipt (f : ReceiptFrame) :
    parseServer (renderServer (.receipt f)) = .ok (.receipt f) := by
  show parseServer (renderWire (strBytes "RECEIPT") true
    [(strBytes "receipt-id", f.receipt_id)] [0]) = _
  rw [parseServer_wire _ _ _ _ (by decide),
    show stripCR (strBytes "RECEIPT") = strBytes "RECEIPT" from by decide,
    parseServerCmd_receipt]
  unfold runFrame
  rw [parseHeaders_render true _ [0] (Or.inl rfl)]
  rcases f with ⟨rid⟩
  simp +decide [parseReceiptFields, noBody, findHdr]

/-- ERROR frames round-trip unconditionally: the schema knows no headers for
ERROR, so every header is custom, and the body runs to the final NUL. -/
theorem roundtrip_error (f : ErrorFrame) :
    parseServer (renderServer (.error f)) = .ok (.error f) := by
  show parseServer
    (renderWire (strBytes "ERROR") true f.custom (f.body ++ [0])) = _
  rw [parseServer_wire _ _ _ _ (by decide),
    show stripCR (strBytes "ERROR") = strBytes "ERROR" from by decide,
    parseServerCmd_error]
  unfold runFrame
  rw [parseHeaders_render true f.custom (f.body ++ [0]) (Or.inl rfl)]
  rcases f with ⟨cus, body⟩
  simp [parseErrorFields, extractBody_none, customOf]

/-- MESSAGE frames round-trip. -/
theorem roundtrip_message (f : MessageFrame) (hwf : WfMessage f) :
    parseServer (renderServer (.message f)) = .ok (.message f) := by
  show parseServer
    (renderWire (strBytes "MESSAGE") true (messagePairs f) (f.body ++ [0])) = _
  rw [parseServer_wire _ _ _ _ (by decide),
    show stripCR (strBytes "MESSAGE") = strBytes "MESSAGE" from by decide,
    parseServerCmd_message]
  unfold runFrame
  rw [parseHeaders_render true (messagePairs f) (f.body ++ [0]) (Or.inl rfl)]
  rcases f with ⟨mid, dest, sub, ct, cl, body⟩
  have hwf2 : cl = none ∨ cl = some body.length := hwf
  rcases hwf2 with rfl | rfl <;> cases ct <;>
    simp +decide [parseMessageFields, messagePairs, optPair, findHdr, optField,
      parseNat_natDigits, extractBody_none, extractBody_some]

/-- Absent optional values are decidably in range. -/
instance instDecOptValueOK : (o : Option (List Nat)) → Decidable (OptValueOK o)
  | none => .isTrue trivial
  | some v => inferInstanceAs (Decidable (ValueOK v))

/-- C1: for every frame value, client or server, constructed with all field
values in their legal range (`wfClient` / `wfServer`), parsing the bytes
produced by rendering the frame yields exactly the frame back: custom-header
order is preserved and optional fields absent before rendering stay absent
after parsing. -/
theorem parse_render_roundtrip :
    (∀ cf : ClientFrame, wfClient cf → parseClient (renderClient cf) = .ok cf) ∧
    (∀ sf : ServerFrame, wfServer sf → parseServer (renderServer sf) = .ok sf) := by
  constructor
  · intro cf hwf
    cases cf with
    | abort f => exact roundtrip_abort f
    | ack f => exact roundtrip_ack f
    | begin f => exact roundtrip_begin f
    | commit f => exact roundtrip_commit f
    | connect f => exact roundtrip_connect f hwf
    | disconnect f => exact roundtrip_disconnect f
    | nack f => exact roundtrip_nack f
    | send f => exact roundtrip_send f hwf
    | subscribe f => exact roundtrip_subscribe f hwf
    | unsubscribe f => exact roundtrip_unsubscribe f
  · intro sf hwf
    cases sf with
    | connected f => exact roundtrip_connected f hwf
    | receipt f => exact roundtrip_receipt f
    | error f => exact roundtrip_error f
    | message f => exact roundtrip_message f hwf

/-- A concrete SEND frame with custom headers, a content-length and a body. -/
def sendExample : SendFrame :=
  ⟨strBytes "a/b", some (strBytes "text/plain"), some 5, none,
   some (strBytes "r1"), [(strBytes "funky", strBytes "doodle")],
   strBytes "hello"⟩

/-- A concrete MESSAGE frame with a binary body and no content-length. -/
def messageExample : MessageFrame :=
  ⟨strBytes "msg-1", strBytes "path/to/hell", strBytes "annual",
   some (strBytes "foo/bar"), none, [0, 1, 1, 2, 3, 5, 8, 13]⟩

/-- Witness for C1 at concrete frames on both sides. -/
theorem parse_render_roundtrip_witness :
    parseClient (renderClient (.send sendExample)) = .ok (.send sendExample) ∧
    parseServer (renderServer (.message messageExample)) =
      .ok (.message messageExample) :=
  ⟨parse_render_roundtrip.1 (.send sendExample)
      (show WfSend sendExample by decide),
   parse_render_roundtrip.2 (.message messageExample)
      (show WfMessage messageExample by decide)⟩

/-- C2: the STOMP wire command parses with the client entry point to the
Connect variant with host `foo`, accept-version `[1.1]` and heart-beat
`(10,20)`, and the CONNECT spelling of the same frame parses to the same
value: the two wire commands map to one variant. -/
theorem parses_stomp_frame :
    parseClient
        (strBytes "STOMP\nhost:foo\naccept-version:1.1\nheart-beat:10,20\n\n\x00")
      = .ok (.connect ⟨strBytes "foo", [.V1_1], some ⟨10, 20⟩, none, none⟩) ∧
    parseClient
        (strBytes "CONNECT\nhost:foo\naccept-version:1.1\nheart-beat:10,20\n\n\x00")
      = .ok (.connect ⟨strBytes "foo", [.V1_1], some ⟨10, 20⟩, none, none⟩) := by
  constructor <;> decide

/-- C6: rendering the MESSAGE frame of the repository's `writes_message_frame`
test produces exactly the expected bytes, with the absent `content-length`
omitted; a second instance with `content-length` set shows the field emitted
in its declared schema position. -/
theorem writes_message_frame :
    renderServer (.message ⟨strBytes "msg-1", strBytes "path/to/hell",
        strBytes "annual", some (strBytes "foo/bar"), none,
        strBytes "Lorem ipsum dolor sit amet,"⟩)
      = strBytes "MESSAGE\nmessage-id:msg-1\ndestination:path/to/hell\nsubscription:annual\ncontent-type:foo/bar\n\nLorem ipsum dolor sit amet,\x00" ∧
    renderServer (.message ⟨strBytes "m", strBytes "d", strBytes "s",
        some (strBytes "t"), some 3, strBytes "abc"⟩)
      = strBytes "MESSAGE\nmessage-id:m\ndestination:d\nsubscription:s\ncontent-type:t\ncontent-length:3\n\nabc\x00" := by
  constructor <;> decide

/-- C8: `ErrorFrame::from_message` yields an ERROR frame whose body is the
UTF-8 byte sequence of the given text and whose custom-header list is
empty. -/
theorem from_message_spec (s : String) :
    (ErrorFrame.from_message s).custom = [] ∧
      (ErrorFrame.from_message s).body = strBytes s :=
  ⟨rfl, rfl⟩

/-! ## Inversion lemmas -/

/-- A successful ABORT extraction yields an abort variant. -/
theorem parseAbortFields_shape {hs : Headers} {region : List Nat}
    {r : ClientFrame} (h : parseAbortFields hs region = .ok r) :
    ∃ g, r = .abort g := by
  unfold parseAbortFields at h
  repeat' split at h
  all_goals
    first
      | exact Except.noConfusion h
      | exact ⟨_, by injection h with h2; exact h2.symm⟩

/-- A successful ACK extraction yields an ack variant. -/
theorem parseAckFields_shape {hs : Headers} {region : List Nat}
    {r : ClientFrame} (h : parseAckFields hs region = .ok r) :
    ∃ g, r = .ack g := by
  unfold parseAckFields at h
  repeat' split at h
  all_goals
    first
      | exact Except.noConfusion h
      | exact ⟨_, by injection h with h2; exact h2.symm⟩

/-- A successful BEGIN extraction yields a begin variant. -/
theorem parseBeginFields_shape {hs : Headers} {region : List Nat}
    {r : ClientFrame} (h : parseBeginFields hs region = .ok r) :
    ∃ g, r = .begin g := by
  unfold parseBeginFields at h
  repeat' split at h
  all_goals
    first
      | exact Except.noConfusion h
      | exact ⟨_, by injection h with h2; exact h2.symm⟩

/-- A successful COMMIT extraction yields a commit variant. -/
theorem parseCommitFields_shape {hs : Headers} {region : List Nat}
    {r : ClientFrame} (h : parseCommitFields hs region = .ok r) :
    ∃ g, r = .commit g := by
  unfold parseCommitFields at h
  repeat' split at h
  all_goals
    first
      | exact Except.noConfusion h
      | exact ⟨_, by injection h with h2; exact h2.symm⟩

/-- A successful CONNECT extraction yields a connect variant. -/
theorem parseConnectFields_shape {hs : Headers} {region : List Nat}
    {r : ClientFrame} (h : parseConnectFields hs region = .ok r) :
    ∃ g, r = .connect g := by
  unfold parseConnectFields at h
  repeat' split at h
  all_goals
    first
      | exact Except.noConfusion h
      | exact ⟨_, by injection h with h2; exact h2.symm⟩

/-- A successful DISCONNECT extraction yields a disconnect variant. -/
theorem parseDisconnectFields_shape {hs : Headers} {region : List Nat}
    {r : ClientFrame} (h : parseDisconnectFields hs region = .ok r) :
    ∃ g, r = .disconnect g := by
  unfold parseDisconnectFields at h
  repeat' split at h
  all_goals
    first
      | exact Except.noConfusion h
      | exact ⟨_, by injection h with h2; exact h2.symm⟩

/-- A successful NACK extraction yields a nack variant. -/
theorem parseNackFields_shape {hs : Headers} {region : List Nat}
    {r : ClientFrame} (h : parseNackFields hs region = .ok r) :
    ∃ g, r = .nack g := by
  unfold parseNackFields at h
  repeat' split at h
  all_goals
    first
      | exact Except.noConfusion h
      | exact ⟨_, by injection h with h2; exact h2.symm⟩

/-- A successful SUBSCRIBE extraction yields a subscribe variant. -/
theorem parseSubscribeFields_shape {hs : Headers} {region : List Nat}
    {r : ClientFrame} (h : parseSubscribeFields hs region = .ok r) :
    ∃ g, r = .subscribe g := by
  unfold parseSubscribeFields at h
  repeat' split at h
  all_goals
    first
      | exact Except.noConfusion h
      | exact ⟨_, by injection h with h2; exact h2.symm⟩

/-- A successful UNSUBSCRIBE extraction yields an unsubscribe variant. -/
theorem parseUnsubscribeFields_shape {hs : Headers} {region : List Nat}
    {r : ClientFrame} (h : parseUnsubscribeFields hs region = .ok r) :
    ∃ g, r = .unsubscribe g := by
  unfold parseUnsubscribeFields at h
  repeat' split at h
  all_goals
    first
      | exact Except.noConfusion h
      | exact ⟨_, by injection h with h2; exact h2.symm⟩

/-- A successful CONNECTED extraction yields a connected variant. -/
theorem parseConnectedFields_shape {hs : Headers} {region : List Nat}
    {r : ServerFrame} (h : parseConnectedFields hs region = .ok r) :
    ∃ g, r = .connected g := by
  unfold parseConnectedFields at h
  repeat' split at h
  all_goals
    first
      | exact Except.noConfusion h
      | exact ⟨_, by injection h with h2; exact h2.symm⟩

/-- A successful RECEIPT extraction yields a receipt variant. -/
theorem parseReceiptFields_shape {hs : Headers} {region : List Nat}
    {r : ServerFrame} (h : parseReceiptFields hs region = .ok r) :
    ∃ g, r = .receipt g := by
  unfold parseReceiptFields at h
  repeat' split at h
  all_goals
    first
      | exact Except.noConfusion h
      | exact ⟨_, by injection h with h2; exact h2.symm⟩

/-- A successful ERROR extraction yields an error variant. -/
theorem parseErrorFields_shape {hs : Headers} {region : List Nat}
    {r : ServerFrame} (h : parseErrorFields hs region = .ok r) :
    ∃ g, r = .error g := by
  unfold parseErrorFields at h
  repeat' split at h
  all_goals
    first
      | exact Except.noConfusion h
      | exact ⟨_, by injection h with h2; exact h2.symm⟩

/-- A successful run of a field extractor passes through the header scan. -/
theorem runFrame_ok {esc : Bool} {α : Type}
    {k : Headers → List Nat → Except ParseError α} {rest : List Nat} {r : α}
    (h : runFrame esc k rest = .ok r) :
    ∃ hs region, parseHeaders esc rest = .ok (hs, region) ∧
      k hs region = .ok r := by
  unfold runFrame at h
  rcases hph : parseHeaders esc rest with e | ⟨hs, region⟩ <;> rw [hph] at h
  · exact Except.noConfusion h
  · exact ⟨hs, region, rfl, h⟩

/-- Full characterisation of a successful SEND extraction. -/
theorem parseSendFields_inv {hs : Headers} {region : List Nat} {f : SendFrame}
    (h : parseSendFields hs region = .ok (.send f)) :
    findHdr (strBytes "destination") hs = some f.destination ∧
    f.content_type = findHdr (strBytes "content-type") hs ∧
    optField parseNat (strBytes "content-length") hs = some f.content_length ∧
    f.transaction = findHdr (strBytes "transaction") hs ∧
    f.receipt = findHdr (strBytes "receipt") hs ∧
    f.custom = customOf knownSend hs ∧
    extractBody f.content_length region = some f.body := by
  unfold parseSendFields at h
  repeat' split at h
  all_goals
    first
      | exact Except.noConfusion h
      | (injection h with h2
         injection h2 with h3
         subst h3
         exact ⟨‹_›, rfl, ‹_›, rfl, rfl, rfl, ‹_›⟩)

/-- Full characterisation of a successful MESSAGE extraction. -/
theorem parseMessageFields_inv {hs : Headers} {region : List Nat}
    {g : MessageFrame} (h : parseMessageFields hs region = .ok (.message g)) :
    findHdr (strBytes "message-id") hs = some g.message_id ∧
    findHdr (strBytes "destination") hs = some g.destination ∧
    findHdr (strBytes "subscription") hs = some g.subscription ∧
    g.content_type = findHdr (strBytes "content-type") hs ∧
    optField parseNat (strBytes "content-length") hs = some g.content_length ∧
    extractBody g.content_length region = some g.body := by
  unfold parseMessageFields at h
  repeat' split at h
  all_goals
    first
      | exact Except.noConfusion h
      | (injection h with h2
         injection h2 with h3
         subst h3
         exact ⟨‹_›, ‹_›, ‹_›, rfl, ‹_›, ‹_›⟩)

/-- Full characterisation of a successful CONNECT extraction. -/
theorem parseConnectFields_inv {hs : Headers} {region : List Nat}
    {f : ConnectFrame} (h : parseConnectFields hs region = .ok (.connect f)) :
    findHdr (strBytes "host") hs = some f.host ∧
    optField parseHeartBeat (strBytes "heart-beat") hs = some f.heartbeat ∧
    f.login = findHdr (strBytes "login") hs ∧
    f.passcode = findHdr (strBytes "passcode") hs := by
  unfold parseConnectFields at h
  repeat' split at h
  all_goals
    first
      | exact Except.noConfusion h
      | (injection h with h2
         injection h2 with h3
         subst h3
         exact ⟨‹_›, ‹_›, rfl, rfl⟩)

/-- Full characterisation of a successful SUBSCRIBE extraction. -/
theorem parseSubscribeFields_inv {hs : Headers} {region : List Nat}
    {f : SubscribeFrame} (h : parseSubscribeFields hs region = .ok (.subscribe f)) :
    findHdr (strBytes "destination") hs = some f.destination ∧
    findHdr (strBytes "id") hs = some f.id ∧
    optField parseAck (strBytes "ack") hs = some f.ack_type ∧
    f.receipt = findHdr (strBytes "receipt") hs ∧
    f.custom = customOf knownSubscribe hs := by
  unfold parseSubscribeFields at h
  repeat' split at h
  all_goals
    first
      | exact Except.noConfusion h
      | (injection h with h2
         injection h2 with h3
         subst h3
         exact ⟨‹_›, ‹_›, ‹_›, rfl, rfl⟩)

set_option maxHeartbeats 1000000 in
/-- A client parse yielding a SEND frame went through the SEND extractor. -/
theorem parseClient_send_inv {input : List Nat} {f : SendFrame}
    (h : parseClient input = .ok (.send f)) :
    ∃ hs region, parseSendFields hs region = .ok (.send f) := by
  unfold parseClient at h
  rcases htl : takeLine input with _ | ⟨cmdLine, rest⟩ <;> rw [htl] at h
  · exact Except.noConfusion h
  · unfold parseClientCmd at h
    repeat' split at h
    all_goals
      first
        | exact Except.noConfusion h
        | (obtain ⟨hs, region, h1, h2⟩ := runFrame_ok h
           first
             | (obtain ⟨g, hg⟩ := parseConnectFields_shape h2
                exact ClientFrame.noConfusion hg)
             | (obtain ⟨g, hg⟩ := parseAbortFields_shape h2
                exact ClientFrame.noConfusion hg)
             | (obtain ⟨g, hg⟩ := parseAckFields_shape h2
                exact ClientFrame.noConfusion hg)
             | (obtain ⟨g, hg⟩ := parseBeginFields_shape h2
                exact ClientFrame.noConfusion hg)
             | (obtain ⟨g, hg⟩ := parseCommitFields_shape h2
                exact ClientFrame.noConfusion hg)
             | (obtain ⟨g, hg⟩ := parseDisconnectFields_shape h2
                exact ClientFrame.noConfusion hg)
             | (obtain ⟨g, hg⟩ := parseNackFields_shape h2
                exact ClientFrame.noConfusion hg)
             | (obtain ⟨g, hg⟩ := parseSubscribeFields_shape h2
                exact ClientFrame.noConfusion hg)
             | (obtain ⟨g, hg⟩ := parseUnsubscribeFields_shape h2
                exact ClientFrame.noConfusion hg)
             | exact ⟨hs, region, h2⟩)

set_option maxHeartbeats 1000000 in
/-- A server parse yielding a MESSAGE frame went through its extractor. -/
theorem parseServer_message_inv {input : List Nat} {g : MessageFrame}
    (h : parseServer input = .ok (.message g)) :
    ∃ hs region, parseMessageFields hs region = .ok (.message g) := by
  unfold parseServer at h
  rcases htl : takeLine input with _ | ⟨cmdLine, rest⟩ <;> rw [htl] at h
  · exact Except.noConfusion h
  · unfold parseServerCmd at h
    repeat' split at h
    all_goals
      first
        | exact Except.noConfusion h
        | (obtain ⟨hs, region, h1, h2⟩ := runFrame_ok h
           first
             | (obtain ⟨g2, hg⟩ := parseConnectedFields_shape h2
                exact ServerFrame.noConfusion hg)
             | (obtain ⟨g2, hg⟩ := parseReceiptFields_shape h2
                exact ServerFrame.noConfusion hg)
             | (obtain ⟨g2, hg⟩ := parseErrorFields_shape h2
                exact ServerFrame.noConfusion hg)
             | exact ⟨hs, region, h2⟩)

/-- C3: whenever a SEND or MESSAGE frame parses successfully from any input
buffer with `content-length: n` present, the body of the resulting frame is
exactly `n` octets long. -/
theorem content_length_agreement :
    (∀ (input : List Nat) (n : Nat) (f : SendFrame),
       parseClient input = .ok (.send f) → f.content_length = some n →
       f.body.length = n) ∧
    (∀ (input : List Nat) (n : Nat) (g : MessageFrame),
       parseServer input = .ok (.message g) → g.content_length = some n →
       g.body.length = n) := by
  constructor
  · intro input n f h hcl
    obtain ⟨hs, region, h2⟩ := parseClient_send_inv h
    obtain ⟨_, _, _, _, _, _, hbody⟩ := parseSendFields_inv h2
    rw [hcl] at hbody
    exact extractBody_some_length hbody
  · intro input n g h hcl
    obtain ⟨hs, region, h2⟩ := parseServer_message_inv h
    obtain ⟨_, _, _, _, _, hbody⟩ := parseMessageFields_inv h2
    rw [hcl] at hbody
    exact extractBody_some_length hbody

/-- Witness for C3 on concrete SEND and MESSAGE inputs. -/
theorem content_length_agreement_witness :
    (⟨strBytes "x", none, some 5, none, none, [],
        strBytes "hello"⟩ : SendFrame).body.length = 5 ∧
    (⟨strBytes "m", strBytes "d", strBytes "s", none, some 3,
        strBytes "abc"⟩ : MessageFrame).body.length = 3 :=
  ⟨content_length_agreement.1
      (strBytes "SEND\ndestination:x\ncontent-length:5\n\nhello\x00") 5 _
      (by decide) rfl,
   content_length_agreement.2
      (strBytes "MESSAGE\nmessage-id:m\ndestination:d\nsubscription:s\ncontent-length:3\n\nabc\x00")
      3 _ (by decide) rfl⟩

/-- A SEND wire buffer reduces to the SEND field extractor on its pairs. -/
theorem parseClient_send_wire (ps : Headers) (tail : List Nat) :
    parseClient (renderWire (strBytes "SEND") true ps tail) =
      parseSendFields ps tail := by
  rw [parseClient_wire _ _ _ _ (by decide),
    show stripCR (strBytes "SEND") = strBytes "SEND" from by decide,
    parseClientCmd_send]
  unfold runFrame
  rw [parseHeaders_render true ps tail (Or.inl rfl)]

/-- A SUBSCRIBE wire buffer reduces to its field extractor. -/
theorem parseClient_subscribe_wire (ps : Headers) (tail : List Nat) :
    parseClient (renderWire (strBytes "SUBSCRIBE") true ps tail) =
      parseSubscribeFields ps tail := by
  rw [parseClient_wire _ _ _ _ (by decide),
    show stripCR (strBytes "SUBSCRIBE") = strBytes "SUBSCRIBE" from by decide,
    parseClientCmd_subscribe]
  unfold runFrame
  rw [parseHeaders_render true ps tail (Or.inl rfl)]

/-- A CONNECT wire buffer with delimiter-free header lines reduces to the
CONNECT field extractor on its pairs. -/
theorem parseClient_connect_wire (ps : Headers) (tail : List Nat)
    (hraw : ∀ p ∈ ps, rawPairOK p) :
    parseClient (renderWire (strBytes "CONNECT") false ps tail) =
      parseConnectFields ps tail := by
  rw [parseClient_wire _ _ _ _ (by decide),
    show stripCR (strBytes "CONNECT") = strBytes "CONNECT" from by decide,
    parseClientCmd_connect]
  unfold runFrame
  rw [parseHeaders_render false ps tail (Or.inr hraw)]

/-- C4: for any header-pair sequence rendered into a SEND buffer — in
particular one holding several pairs with the same known name, or repeated
custom names — a successful parse retains, for each known header, the value
of its first occurrence (`findHdr` scans front to back and stops at the
first name match), and retains every occurrence of every custom-named pair
in input order (`customOf` filters, never deduplicates). -/
theorem duplicate_header_policy :
    ∀ (ps : Headers) (tail : List Nat) (f : SendFrame),
      parseClient (renderWire (strBytes "SEND") true ps tail) =
        .ok (.send f) →
      findHdr (strBytes "destination") ps = some f.destination ∧
      f.content_type = findHdr (strBytes "content-type") ps ∧
      f.transaction = findHdr (strBytes "transaction") ps ∧
      f.custom = customOf knownSend ps := by
  intro ps tail f h
  rw [parseClient_send_wire] at h
  obtain ⟨h1, h2, _, h4, _, h6, _⟩ := parseSendFields_inv h
  exact ⟨h1, h2, h4, h6⟩

/-- A concrete SEND header sequence with a duplicated known name and a
duplicated custom name. -/
def dupPairs : Headers :=
  [(strBytes "destination", strBytes "first/dest"),
   (strBytes "destination", strBytes "second/dest"),
   (strBytes "funky", strBytes "x"),
   (strBytes "funky", strBytes "y")]

/-- The SEND frame that the duplicated header sequence parses to. -/
def dupFrame : SendFrame :=
  ⟨strBytes "first/dest", none, none, none, none,
   [(strBytes "funky", strBytes "x"), (strBytes "funky", strBytes "y")],
   strBytes "body"⟩

/-- Witness for C4: the first `destination` wins and both `funky`
occurrences survive. -/
theorem duplicate_header_policy_witness :
    findHdr (strBytes "destination") dupPairs = some dupFrame.destination ∧
    dupFrame.content_type = findHdr (strBytes "content-type") dupPairs ∧
    dupFrame.transaction = findHdr (strBytes "transaction") dupPairs ∧
    dupFrame.custom = customOf knownSend dupPairs :=
  duplicate_header_policy dupPairs (strBytes "body" ++ [0]) dupFrame (by decide)

/-- A body extracted without content-length is the region up to its final
octet. -/
theorem extractBody_none_inv {region b : List Nat}
    (h : extractBody none region = some b) : b = region.dropLast := by
  simp only [extractBody] at h
  by_cases hc : region.getLast? = some 0
  · rw [if_pos hc] at h
    injection h with h2
    exact h2.symm
  · rw [if_neg hc] at h
    exact Option.noConfusion h

/-- C5 counterexample: the binary SEND input of the repository's
`parses_binary_send_frame` test has a content-length-free body that starts
with a NUL octet; the parse (matching the test's expectation) returns all
eight body octets, not the empty prefix before the first NUL that the claim
prescribes. -/
theorem first_nul_rule_counterexample :
    parseClient (strBytes "SEND\ndestination:stairway/to/heaven\n\n"
        ++ [0, 1, 1, 2, 3, 5, 8, 13] ++ [0])
      = .ok (.send ⟨strBytes "stairway/to/heaven", none, none, none, none, [],
          [0, 1, 1, 2, 3, 5, 8, 13]⟩) ∧
    ([0, 1, 1, 2, 3, 5, 8, 13] : List Nat) ≠
      List.takeWhile (fun b => b != 0) ([0, 1, 1, 2, 3, 5, 8, 13, 0] : List Nat)
    := by
  constructor <;> decide

/-- C5 as amended: without a content-length header the body is the bytes
after the blank line up to but not including the terminating NUL octet at
the end of the buffer (not the first NUL octet, which may lie inside a
binary body); the concrete SEND example of the spec parses as stated. -/
theorem send_body_extent :
    (∀ (ps : Headers) (tail : List Nat) (f : SendFrame),
       parseClient (renderWire (strBytes "SEND") true ps tail) =
         .ok (.send f) →
       f.content_length = none → f.body = tail.dropLast) ∧
    parseClient
        (strBytes "SEND\ndestination:stairway/to/heaven\n\nLorem ipsum dolor sit amet,...\x00")
      = .ok (.send ⟨strBytes "stairway/to/heaven", none, none, none, none, [],
          strBytes "Lorem ipsum dolor sit amet,..."⟩) := by
  constructor
  · intro ps tail f h hcl
    rw [parseClient_send_wire] at h
    obtain ⟨_, _, _, _, _, _, hbody⟩ := parseSendFields_inv h
    rw [hcl] at hbody
    exact extractBody_none_inv hbody
  · decide

/-- Witness for C5 (amended): a body with embedded NUL octets extends to the
terminating NUL. -/
theorem send_body_extent_witness :
    (⟨strBytes "d", none, none, none, none, [],
        [65, 0, 66]⟩ : SendFrame).body = List.dropLast [65, 0, 66, 0] :=
  send_body_extent.1 [(strBytes "destination", strBytes "d")] [65, 0, 66, 0]
    ⟨strBytes "d", none, none, none, none, [], [65, 0, 66]⟩ (by decide) rfl

/-- C7: no default is materialised at parse time.  For any CONNECT buffer of
well-formed header lines among which no line is named `heart-beat`, a
successful parse leaves the heart-beat field absent rather than the schema
default `(0,0)`; with only the required `host` and `accept-version` lines
the parse succeeds with every optional field absent.  Likewise a SUBSCRIBE
buffer without an `ack` line parses with the ack field absent rather than
the default `auto`, and succeeds given only `destination` and `id`. -/
theorem no_defaults_at_parse :
    (∀ (ps : Headers) (f : ConnectFrame), (∀ p ∈ ps, rawPairOK p) →
       parseClient (renderWire (strBytes "CONNECT") false ps [0]) =
         .ok (.connect f) →
       findHdr (strBytes "heart-beat") ps = none → f.heartbeat = none) ∧
    (∀ (host : List Nat) (av : List StompVersion), ValueOK host → av ≠ [] →
       parseClient (renderWire (strBytes "CONNECT") false
           [(strBytes "host", host),
            (strBytes "accept-version", renderAcceptVersion av)] [0]) =
         .ok (.connect ⟨host, av, none, none, none⟩)) ∧
    (∀ (ps : Headers) (f : SubscribeFrame),
       parseClient (renderWire (strBytes "SUBSCRIBE") true ps [0]) =
         .ok (.subscribe f) →
       findHdr (strBytes "ack") ps = none → f.ack_type = none) ∧
    (∀ dest i : List Nat,
       parseClient (renderWire (strBytes "SUBSCRIBE") true
           [(strBytes "destination", dest), (strBytes "id", i)] [0]) =
         .ok (.subscribe ⟨dest, i, none, none, []⟩)) := by
  refine ⟨?_, ?_, ?_, ?_⟩
  · intro ps f hraw h hnone
    rw [parseClient_connect_wire ps [0] hraw] at h
    obtain ⟨_, hhb, _, _⟩ := parseConnectFields_inv h
    unfold optField at hhb
    rw [hnone] at hhb
    injection hhb with h2
    exact h2.symm
  · intro host av hhost hav
    exact roundtrip_connect ⟨host, av, none, none, none⟩
      ⟨hhost, hav, trivial, trivial⟩
  · intro ps f h hnone
    rw [parseClient_subscribe_wire] at h
    obtain ⟨_, _, hack, _, _⟩ := parseSubscribeFields_inv h
    unfold optField at hack
    rw [hnone] at hack
    injection hack with h2
    exact h2.symm
  · intro dest i
    exact roundtrip_subscribe ⟨dest, i, none, none, []⟩ (fun p hp => by cases hp)

/-- Witness for C7 at concrete CONNECT and SUBSCRIBE inputs. -/
theorem no_defaults_at_parse_witness :
    ((⟨strBytes "h", [.V1_2], none, none, none⟩ : ConnectFrame).heartbeat
        = none) ∧
    parseClient (renderWire (strBytes "CONNECT") false
        [(strBytes "host", strBytes "h"),
         (strBytes "accept-version", renderAcceptVersion [.V1_2])] [0]) =
      .ok (.connect ⟨strBytes "h", [.V1_2], none, none, none⟩) ∧
    ((⟨strBytes "d", strBytes "s1", none, none, []⟩ : SubscribeFrame).ack_type
        = none) ∧
    parseClient (renderWire (strBytes "SUBSCRIBE") true
        [(strBytes "destination", strBytes "d"), (strBytes "id", strBytes "s1")]
        [0]) =
      .ok (.subscribe ⟨strBytes "d", strBytes "s1", none, none, []⟩) :=
  ⟨no_defaults_at_parse.1
      [(strBytes "host", strBytes "h"),
       (strBytes "accept-version", strBytes "1.2")]
      ⟨strBytes "h", [.V1_2], none, none, none⟩ (by decide) (by decide)
      (by decide),
   no_defaults_at_parse.2.1 (strBytes "h") [.V1_2] (by decide) (by decide),
   no_defaults_at_parse.2.2.1
      [(strBytes "destination", strBytes "d"), (strBytes "id", strBytes "s1")]
      ⟨strBytes "d", strBytes "s1", none, none, []⟩ (by decide) (by decide),
   no_defaults_at_parse.2.2.2 (strBytes "d") (strBytes "s1")⟩

/-! ## Display rendering (C10)

The generated frame types expose two render paths: the `Display`
implementation behind `to_string`, which writes the canonical wire form as
text, and the `TryInto<Vec<u8>>` conversion, which writes it as bytes
(tests `writes_message_frame` and `writes_message_frame_bytes`).  The text
path is modelled here as a character-level renderer with its own escaping
and digit formatting, and is proved to agree octet-for-octet with the byte
renderer. -/

/-- Octets below 256 survive the character round trip. -/
theorem toNat_ofNat_byte {b : Nat} (h : b < 256) : (Char.ofNat b).toNat = b := by
  have hv : b.isValidChar := Or.inl (by omega)
  simp [Char.ofNat, hv, Char.ofNatAux, Char.toNat, UInt32.toNat,
    BitVec.toNat_ofNatLt]

/-- Characters with equal code points are equal. -/
theorem char_toNat_injective {c d : Char} (h : c.toNat = d.toNat) : c = d := by
  apply Char.eq_of_val_eq
  apply UInt32.eq_of_toBitVec_eq
  apply BitVec.eq_of_toNat_eq
  exact h

/-- The characters of a string literal. -/
def chars (s : String) : List Char := s.data

/-- View stored value octets as text. -/
def strC (l : List Nat) : List Char := l.map Char.ofNat

/-- Character-level STOMP escaping of one character. -/
def escCByte (c : Char) : List Char :=
  if c = '\n' then ['\\', 'n']
  else if c = '\r' then ['\\', 'r']
  else if c = ':' then ['\\', 'c']
  else if c = '\\' then ['\\', '\\']
  else [c]

/-- Character-level STOMP escaping. -/
def escapeC (l : List Char) : List Char :=
  (l.map escCByte).flatten

/-- Join text fragments with a separator character. -/
def intercalateChar (sep : Char) : List (List Char) → List Char
  | [] => []
  | [x] => x
  | x :: y :: xs => x ++ sep :: intercalateChar sep (y :: xs)

/-- Decimal digit text with explicit recursion depth. -/
def natDigitsCAux : Nat → Nat → List Char
  | 0, _ => []
  | fuel + 1, n =>
    if n < 10 then [Char.ofNat (48 + n)]
    else natDigitsCAux fuel (n / 10) ++ [Char.ofNat (48 + n % 10)]

/-- Decimal digit text of a natural number. -/
def natDigitsC (n : Nat) : List Char := natDigitsCAux (n + 1) n

/-- Version tag text. -/
def renderVersionC : StompVersion → List Char
  | .V1_0 => chars "1.0"
  | .V1_1 => chars "1.1"
  | .V1_2 => chars "1.2"

/-- Accept-version list text. -/
def renderAcceptVersionC (vs : List StompVersion) : List Char :=
  intercalateChar ',' (vs.map renderVersionC)

/-- Heart-beat text. -/
def renderHeartBeatC (h : HeartBeatIntervalls) : List Char :=
  natDigitsC h.supplied ++ ',' :: natDigitsC h.expected

/-- Ack-mode text. -/
def renderAckC : AckType → List Char
  | .Auto => chars "auto"
  | .Client => chars "client"
  | .ClientIndividual => chars "client-individual"

/-- Text header pairs. -/
abbrev HeadersC := List (List Char × List Char)

/-- A present optional header as text. -/
def optPairC (nm : String) : Option (List Char) → HeadersC
  | none => []
  | some v => [(chars nm, v)]

/-- One text header line. -/
def renderHeaderC (esc : Bool) (nm v : List Char) : List Char :=
  (if esc then escapeC nm else nm) ++ ':' :: (if esc then escapeC v else v)
    ++ ['\n']

/-- The text header section. -/
def renderHeadersC (esc : Bool) (ps : HeadersC) : List Char :=
  (ps.map (fun p => renderHeaderC esc p.1 p.2)).flatten

/-- A full text frame. -/
def renderWireC (cmd : List Char) (esc : Bool) (ps : HeadersC)
    (tail : List Char) : List Char :=
  cmd ++ '\n' :: (renderHeadersC esc ps ++ '\n' :: tail)

/-- Custom headers as text. -/
def customC (hs : Headers) : HeadersC :=
  hs.map (fun p => (strC p.1, strC p.2))

/-- CONNECT text header pairs. -/
def connectPairsC (f : ConnectFrame) : HeadersC :=
  (chars "host", strC f.host) ::
    (chars "accept-version", renderAcceptVersionC f.accept_version) ::
    (optPairC "heart-beat" (f.heartbeat.map renderHeartBeatC) ++
      (optPairC "login" (f.login.map strC) ++
        optPairC "passcode" (f.passcode.map strC)))

/-- SEND text header pairs. -/
def sendPairsC (f : SendFrame) : HeadersC :=
  (chars "destination", strC f.destination) ::
    (optPairC "content-type" (f.content_type.map strC) ++
      (optPairC "content-length" (f.content_length.map natDigitsC) ++
        (optPairC "transaction" (f.transaction.map strC) ++
          (optPairC "receipt" (f.receipt.map strC) ++ customC f.custom))))

/-- SUBSCRIBE text header pairs. -/
def subscribePairsC (f : SubscribeFrame) : HeadersC :=
  (chars "destination", strC f.destination) :: (chars "id", strC f.id) ::
    (optPairC "ack" (f.ack_type.map renderAckC) ++
      (optPairC "receipt" (f.receipt.map strC) ++ customC f.custom))

/-- CONNECTED text header pairs. -/
def connectedPairsC (f : ConnectedFrame) : HeadersC :=
  (chars "version", renderVersionC f.version) ::
    (optPairC "heart-beat" (f.heartbeat.map renderHeartBeatC) ++
      (optPairC "session" (f.session.map strC) ++
        optPairC "server" (f.server.map strC)))

/-- MESSAGE text header pairs. -/
def messagePairsC (f : MessageFrame) : HeadersC :=
  (chars "message-id", strC f.message_id) ::
    (chars "destination", strC f.destination) ::
    (chars "subscription", strC f.subscription) ::
    (optPairC "content-type" (f.content_type.map strC) ++
      optPairC "content-length" (f.content_length.map natDigitsC))

/-- The text rendering of a client frame (the `Display` path). -/
def displayClient : ClientFrame → List Char
  | .abort f => renderWireC (chars "ABORT") true
      [(chars "transaction", strC f.transaction)] [Char.ofNat 0]
  | .ack f => renderWireC (chars "ACK") true
      ((chars "id", strC f.id) :: (chars "transaction", strC f.transaction) ::
        optPairC "receipt" (f.receipt.map strC)) [Char.ofNat 0]
  | .begin f => renderWireC (chars "BEGIN") true
      ((chars "transaction", strC f.transaction) ::
        optPairC "receipt" (f.receipt.map strC)) [Char.ofNat 0]
  | .commit f => renderWireC (chars "COMMIT") true
      ((chars "transaction", strC f.transaction) ::
        optPairC "receipt" (f.receipt.map strC)) [Char.ofNat 0]
  | .connect f => renderWireC (chars "CONNECT") false (connectPairsC f)
      [Char.ofNat 0]
  | .disconnect f => renderWireC (chars "DISCONNECT") true
      [(chars "receipt", strC f.receipt)] [Char.ofNat 0]
  | .nack f => renderWireC (chars "NACK") true
      ((chars "id", strC f.id) :: (chars "transaction", strC f.transaction) ::
        optPairC "receipt" (f.receipt.map strC)) [Char.ofNat 0]
  | .send f => renderWireC (chars "SEND") true (sendPairsC f)
      (strC f.body ++ [Char.ofNat 0])
  | .subscribe f => renderWireC (chars "SUBSCRIBE") true (subscribePairsC f)
      [Char.ofNat 0]
  | .unsubscribe f => renderWireC (chars "UNSUBSCRIBE") true
      ((chars "id", strC f.id) :: optPairC "receipt" (f.receipt.map strC))
      [Char.ofNat 0]

/-- The text rendering of a server frame (the `Display` path). -/
def displayServer : ServerFrame → List Char
  | .connected f => renderWireC (chars "CONNECTED") false (connectedPairsC f)
      [Char.ofNat 0]
  | .receipt f => renderWireC (chars "RECEIPT") true
      [(chars "receipt-id", strC f.receipt_id)] [Char.ofNat 0]
  | .error f => renderWireC (chars "ERROR") true (customC f.custom)
      (strC f.body ++ [Char.ofNat 0])
  | .message f => renderWireC (chars "MESSAGE") true (messagePairsC f)
      (strC f.body ++ [Char.ofNat 0])

/-- Stored octets lie in byte range. -/
def bytesB (l : List Nat) : Bool := l.all (fun b => b < 256)

/-- Optional stored octets lie in byte range. -/
def optBytesB (o : Option (List Nat)) : Bool := o.all bytesB

/-- Custom header octets lie in byte range. -/
def customB (hs : Headers) : Bool :=
  hs.all (fun p => bytesB p.1 && bytesB p.2)

/-- All octets stored in a client frame lie in byte range. -/
def byteOKClient : ClientFrame → Bool
  | .abort f => bytesB f.transaction
  | .ack f => bytesB f.id && bytesB f.transaction && optBytesB f.receipt
  | .begin f => bytesB f.transaction && optBytesB f.receipt
  | .commit f => bytesB f.transaction && optBytesB f.receipt
  | .connect f => bytesB f.host && optBytesB f.login && optBytesB f.passcode
  | .disconnect f => bytesB f.receipt
  | .nack f => bytesB f.id && bytesB f.transaction && optBytesB f.receipt
  | .send f => bytesB f.destination && optBytesB f.content_type &&
      optBytesB f.transaction && optBytesB f.receipt && customB f.custom &&
      bytesB f.body
  | .subscribe f => bytesB f.destination && bytesB f.id &&
      optBytesB f.receipt && customB f.custom
  | .unsubscribe f => bytesB f.id && optBytesB f.receipt

/-- All octets stored in a server frame lie in byte range. -/
def byteOKServer : ServerFrame → Bool
  | .connected f => optBytesB f.session && optBytesB f.server
  | .receipt f => bytesB f.receipt_id
  | .error f => customB f.custom && bytesB f.body
  | .message f => bytesB f.message_id && bytesB f.destination &&
      bytesB f.subscription && optBytesB f.content_type && bytesB f.body

/-- Reading the code points of viewed octets gives the octets back. -/
theorem map_toNat_strC {l : List Nat} (h : bytesB l = true) :
    (strC l).map Char.toNat = l := by
  induction l with
  | nil => rfl
  | cons b bs ih =>
    have hb : b < 256 := by
      have := (List.all_eq_true.mp h) b (List.mem_cons_self _ _)
      simpa using this
    have hbs : bytesB bs = true := by
      apply List.all_eq_true.mpr
      intro x hx
      exact (List.all_eq_true.mp h) x (List.mem_cons_of_mem _ hx)
    have h2 := ih hbs
    simp only [strC, List.map_cons] at h2 ⊢
    rw [toNat_ofNat_byte hb, h2]

/-- Character-level escaping agrees with byte-level escaping. -/
theorem map_toNat_escCByte (c : Char) :
    (escCByte c).map Char.toNat = escByte c.toNat := by
  unfold escCByte escByte
  by_cases h10 : c = '\n'
  · subst h10; decide
  · by_cases h13 : c = '\r'
    · subst h13; decide
    · by_cases h58 : c = ':'
      · subst h58; decide
      · by_cases h92 : c = '\\'
        · subst h92; decide
        · have t10 : c.toNat ≠ 10 := fun hc =>
            h10 (char_toNat_injective (hc.trans (by decide)))
          have t13 : c.toNat ≠ 13 := fun hc =>
            h13 (char_toNat_injective (hc.trans (by decide)))
          have t58 : c.toNat ≠ 58 := fun hc =>
            h58 (char_toNat_injective (hc.trans (by decide)))
          have t92 : c.toNat ≠ 92 := fun hc =>
            h92 (char_toNat_injective (hc.trans (by decide)))
          rw [if_neg h10, if_neg h13, if_neg h58, if_neg h92,
            if_neg t10, if_neg t13, if_neg t58, if_neg t92]
          rfl

/-- Character-level escaping of a text agrees with byte-level escaping of
its code points. -/
theorem map_toNat_escapeC (l : List Char) :
    (escapeC l).map Char.toNat = escape (l.map Char.toNat) := by
  induction l with
  | nil => rfl
  | cons c cs ih =>
    simp only [escapeC, escape, List.map_cons, List.flatten_cons,
      List.map_append]
    rw [map_toNat_escCByte]
    congr 1

/-- Digit text agrees with digit octets at every recursion depth. -/
theorem natDigitsCAux_commute :
    ∀ (fuel n : Nat),
      (natDigitsCAux fuel n).map Char.toNat = natDigitsAux fuel n := by
  intro fuel
  induction fuel with
  | zero => intro n; rfl
  | succ f ih =>
    intro n
    simp only [natDigitsCAux, natDigitsAux]
    by_cases hn : n < 10
    · rw [if_pos hn, if_pos hn]
      simp [toNat_ofNat_byte (show 48 + n < 256 by omega)]
    · have := Nat.mod_lt n (show 0 < 10 by omega)
      rw [if_neg hn, if_neg hn, List.map_append, ih (n / 10)]
      simp [toNat_ofNat_byte (show 48 + n % 10 < 256 by omega)]

/-- Digit text agrees with digit octets. -/
theorem natDigitsC_commute (n : Nat) :
    (natDigitsC n).map Char.toNat = natDigits n :=
  natDigitsCAux_commute (n + 1) n

/-- Version text agrees with version octets. -/
theorem renderVersionC_commute (v : StompVersion) :
    (renderVersionC v).map Char.toNat = renderVersion v := by
  cases v <;> decide

/-- Separator joins agree. -/
theorem intercalateChar_commute (sep : Char) :
    ∀ parts : List (List Char),
      (intercalateChar sep parts).map Char.toNat =
        intercalateByte sep.toNat (parts.map (List.map Char.toNat)) := by
  intro parts
  induction parts with
  | nil => rfl
  | cons x xs ih =>
    cases xs with
    | nil => rfl
    | cons y ys =>
      simp only [intercalateChar, intercalateByte, List.map_append,
        List.map_cons]
      rw [ih]
      rfl

/-- Accept-version text agrees with accept-version octets. -/
theorem renderAcceptVersionC_commute (vs : List StompVersion) :
    (renderAcceptVersionC vs).map Char.toNat = renderAcceptVersion vs := by
  unfold renderAcceptVersionC renderAcceptVersion
  rw [intercalateChar_commute]
  have h44 : (',' : Char).toNat = 44 := by decide
  rw [h44, List.map_map]
  congr 1
  apply List.map_congr_left
  intro v _
  exact renderVersionC_commute v

/-- Heart-beat text agrees with heart-beat octets. -/
theorem renderHeartBeatC_commute (h : HeartBeatIntervalls) :
    (renderHeartBeatC h).map Char.toNat = renderHeartBeat h := by
  unfold renderHeartBeatC renderHeartBeat
  rw [List.map_append, natDigitsC_commute]
  simp [natDigitsC_commute]

/-- Ack text agrees with ack octets. -/
theorem renderAckC_commute (a : AckType) :
    (renderAckC a).map Char.toNat = renderAck a := by
  cases a <;> decide

/-- One text header line agrees with its byte line. -/
theorem renderHeaderC_commute (esc : Bool) {nmC vC : List Char}
    {nm v : List Nat} (hnm : nmC.map Char.toNat = nm)
    (hv : vC.map Char.toNat = v) :
    (renderHeaderC esc nmC vC).map Char.toNat = renderHeader esc nm v := by
  cases esc <;>
    simp +decide [renderHeaderC, renderHeader, map_toNat_escapeC, hnm, hv]

/-- Octet view of a text header-pair list. -/
def mapPair (p : List Char × List Char) : List Nat × List Nat :=
  (p.1.map Char.toNat, p.2.map Char.toNat)

/-- The text header section agrees with the byte header section whenever the
pair lists agree pointwise. -/
theorem renderHeadersC_commute (esc : Bool) :
    ∀ {psC : HeadersC} {ps : Headers}, psC.map mapPair = ps →
      (renderHeadersC esc psC).map Char.toNat = renderHeaders esc ps := by
  intro psC
  induction psC with
  | nil =>
    intro ps hps
    rw [← hps]
    rfl
  | cons p psC ih =>
    intro ps hps
    rw [← hps]
    have h1 : renderHeadersC esc (p :: psC) =
        renderHeaderC esc p.1 p.2 ++ renderHeadersC esc psC := by
      simp [renderHeadersC]
    have h2 : renderHeaders esc ((p :: psC).map mapPair) =
        renderHeader esc (p.1.map Char.toNat) (p.2.map Char.toNat) ++
          renderHeaders esc (psC.map mapPair) := by
      simp [renderHeaders, mapPair]
    rw [h1, h2, List.map_append, ih rfl, renderHeaderC_commute esc rfl rfl]

/-- The full text frame agrees with the byte frame. -/
theorem renderWireC_commute {cmdC : List Char} {cmd : List Nat} (esc : Bool)
    {psC : HeadersC} {ps : Headers} {tailC : List Char} {tail : List Nat}
    (hcmd : cmdC.map Char.toNat = cmd) (hps : psC.map mapPair = ps)
    (htail : tailC.map Char.toNat = tail) :
    (renderWireC cmdC esc psC tailC).map Char.toNat =
      renderWire cmd esc ps tail := by
  unfold renderWireC renderWire
  rw [List.map_append, hcmd, List.map_cons, List.map_append,
    renderHeadersC_commute esc hps, List.map_cons, htail]
  rfl

/-- Optional string-valued text pairs agree with byte pairs. -/
theorem mapPair_optPairC_str (nm : String)
    (hnm : (chars nm).map Char.toNat = strBytes nm) (o : Option (List Nat))
    (ho : optBytesB o = true) :
    (optPairC nm (o.map strC)).map mapPair = optPair nm o := by
  cases o with
  | none => rfl
  | some v =>
    have hv : bytesB v = true := by simpa [optBytesB] using ho
    simp [optPairC, optPair, mapPair, hnm, map_toNat_strC hv]

/-- Optional typed-valued text pairs agree with byte pairs. -/
theorem mapPair_optPairC_map {α : Type} (nm : String) (g : α → List Char)
    (g2 : α → List Nat) (hnm : (chars nm).map Char.toNat = strBytes nm)
    (hg : ∀ a, (g a).map Char.toNat = g2 a) (o : Option α) :
    (optPairC nm (o.map g)).map mapPair = optPair nm (o.map g2) := by
  cases o <;> simp [optPairC, optPair, mapPair, hnm, hg]

/-- Custom text pairs agree with the stored custom byte pairs. -/
theorem mapPair_customC {hs : Headers} (h : customB hs = true) :
    (customC hs).map mapPair = hs := by
  induction hs with
  | nil => rfl
  | cons p ps ih =>
    have hp := (List.all_eq_true.mp h) p (List.mem_cons_self _ _)
    have hps : customB ps = true := by
      apply List.all_eq_true.mpr
      intro x hx
      exact (List.all_eq_true.mp h) x (List.mem_cons_of_mem _ hx)
    have hp2 : (bytesB p.1 && bytesB p.2) = true := by simpa using hp
    obtain ⟨h1, h2⟩ := Bool.and_eq_true_iff.mp hp2
    simp only [customC, List.map_cons, mapPair]
    rw [map_toNat_strC h1, map_toNat_strC h2]
    have := ih hps
    simp only [customC] at this
    rw [this]

/-- CONNECT text pairs agree with byte pairs. -/
theorem connectPairsC_commute (f : ConnectFrame)
    (hhost : bytesB f.host = true) (hlogin : optBytesB f.login = true)
    (hpass : optBytesB f.passcode = true) :
    (connectPairsC f).map mapPair = connectPairs f := by
  unfold connectPairsC connectPairs
  simp only [List.map_cons, List.map_append]
  rw [mapPair_optPairC_map "heart-beat" renderHeartBeatC renderHeartBeat
      (by decide) renderHeartBeatC_commute f.heartbeat,
    mapPair_optPairC_str "login" (by decide) _ hlogin,
    mapPair_optPairC_str "passcode" (by decide) _ hpass]
  simp [mapPair, map_toNat_strC hhost, renderAcceptVersionC_commute,
    (by decide : (chars "host").map Char.toNat = strBytes "host"),
    (by decide :
      (chars "accept-version").map Char.toNat = strBytes "accept-version")]

/-- SEND text pairs agree with byte pairs. -/
theorem sendPairsC_commute (f : SendFrame)
    (hdest : bytesB f.destination = true)
    (hct : optBytesB f.content_type = true)
    (htr : optBytesB f.transaction = true) (hrc : optBytesB f.receipt = true)
    (hcus : customB f.custom = true) :
    (sendPairsC f).map mapPair = sendPairs f := by
  unfold sendPairsC sendPairs
  simp only [List.map_cons, List.map_append]
  rw [mapPair_optPairC_str "content-type" (by decide) _ hct,
    mapPair_optPairC_map "content-length" natDigitsC natDigits (by decide)
      natDigitsC_commute f.content_length,
    mapPair_optPairC_str "transaction" (by decide) _ htr,
    mapPair_optPairC_str "receipt" (by decide) _ hrc,
    mapPair_customC hcus]
  simp [mapPair, map_toNat_strC hdest,
    (by decide : (chars "destination").map Char.toNat = strBytes "destination")]

/-- SUBSCRIBE text pairs agree with byte pairs. -/
theorem subscribePairsC_commute (f : SubscribeFrame)
    (hdest : bytesB f.destination = true) (hid : bytesB f.id = true)
    (hrc : optBytesB f.receipt = true) (hcus : customB f.custom = true) :
    (subscribePairsC f).map mapPair = subscribePairs f := by
  unfold subscribePairsC subscribePairs
  simp only [List.map_cons, List.map_append]
  rw [mapPair_optPairC_map "ack" renderAckC renderAck (by decide)
      renderAckC_commute f.ack_type,
    mapPair_optPairC_str "receipt" (by decide) _ hrc,
    mapPair_customC hcus]
  simp [mapPair, map_toNat_strC hdest, map_toNat_strC hid,
    (by decide : (chars "destination").map Char.toNat = strBytes "destination"),
    (by decide : (chars "id").map Char.toNat = strBytes "id")]

/-- CONNECTED text pairs agree with byte pairs. -/
theorem connectedPairsC_commute (f : ConnectedFrame)
    (hsess : optBytesB f.session = true) (hsrv : optBytesB f.server = true) :
    (connectedPairsC f).map mapPair = connectedPairs f := by
  unfold connectedPairsC connectedPairs
  simp only [List.map_cons, List.map_append]
  rw [mapPair_optPairC_map "heart-beat" renderHeartBeatC renderHeartBeat
      (by decide) renderHeartBeatC_commute f.heartbeat,
    mapPair_optPairC_str "session" (by decide) _ hsess,
    mapPair_optPairC_str "server" (by decide) _ hsrv]
  simp [mapPair, renderVersionC_commute,
    (by decide : (chars "version").map Char.toNat = strBytes "version")]

/-- MESSAGE text pairs agree with byte pairs. -/
theorem messagePairsC_commute (f : MessageFrame)
    (hmid : bytesB f.message_id = true) (hdest : bytesB f.destination = true)
    (hsub : bytesB f.subscription = true)
    (hct : optBytesB f.content_type = true) :
    (messagePairsC f).map mapPair = messagePairs f := by
  unfold messagePairsC messagePairs
  simp only [List.map_cons, List.map_append]
  rw [mapPair_optPairC_str "content-type" (by decide) _ hct,
    mapPair_optPairC_map "content-length" natDigitsC natDigits (by decide)
      natDigitsC_commute f.content_length]
  simp [mapPair, map_toNat_strC hmid, map_toNat_strC hdest,
    map_toNat_strC hsub,
    (by decide : (chars "message-id").map Char.toNat = strBytes "message-id"),
    (by decide : (chars "destination").map Char.toNat = strBytes "destination"),
    (by decide :
      (chars "subscription").map Char.toNat = strBytes "subscription")]

/-- The body-and-terminator text agrees with the byte tail. -/
theorem tailC_commute {body : List Nat} (h : bytesB body = true) :
    (strC body ++ [Char.ofNat 0]).map Char.toNat = body ++ [0] := by
  rw [List.map_append, map_toNat_strC h]
  congr 1

/-- C10: for every frame value whose stored octets are in byte range, the
text produced by the `Display` rendering has exactly the code-point
sequence of the byte vector produced by the `TryInto<Vec<u8>>` rendering:
the two render paths emit identical wire bytes. -/
theorem display_refines_bytes :
    (∀ cf : ClientFrame, byteOKClient cf = true →
       (displayClient cf).map Char.toNat = renderClient cf) ∧
    (∀ sf : ServerFrame, byteOKServer sf = true →
       (displayServer sf).map Char.toNat = renderServer sf) := by
  constructor
  · intro cf h
    cases cf with
    | abort f =>
      simp only [byteOKClient] at h
      exact renderWireC_commute true (by decide)
        (by simp [mapPair, map_toNat_strC h,
          (by decide :
            (chars "transaction").map Char.toNat = strBytes "transaction")])
        (by decide)
    | ack f =>
      simp only [byteOKClient, Bool.and_eq_true] at h
      obtain ⟨⟨h1, h2⟩, h3⟩ := h
      refine renderWireC_commute true (by decide) ?_ (by decide)
      simp only [List.map_cons]
      rw [mapPair_optPairC_str "receipt" (by decide) _ h3]
      simp [mapPair, map_toNat_strC h1, map_toNat_strC h2,
        (by decide : (chars "id").map Char.toNat = strBytes "id"),
        (by decide :
          (chars "transaction").map Char.toNat = strBytes "transaction")]
    | begin f =>
      simp only [byteOKClient, Bool.and_eq_true] at h
      obtain ⟨h1, h2⟩ := h
      refine renderWireC_commute true (by decide) ?_ (by decide)
      simp only [List.map_cons]
      rw [mapPair_optPairC_str "receipt" (by decide) _ h2]
      simp [mapPair, map_toNat_strC h1,
        (by decide :
          (chars "transaction").map Char.toNat = strBytes "transaction")]
    | commit f =>
      simp only [byteOKClient, Bool.and_eq_true] at h
      obtain ⟨h1, h2⟩ := h
      refine renderWireC_commute true (by decide) ?_ (by decide)
      simp only [List.map_cons]
      rw [mapPair_optPairC_str "receipt" (by decide) _ h2]
      simp [mapPair, map_toNat_strC h1,
        (by decide :
          (chars "transaction").map Char.toNat = strBytes "transaction")]
    | connect f =>
      simp only [byteOKClient, Bool.and_eq_true] at h
      obtain ⟨⟨h1, h2⟩, h3⟩ := h
      exact renderWireC_commute false (by decide)
        (connectPairsC_commute f h1 h2 h3) (by decide)
    | disconnect f =>
      simp only [byteOKClient] at h
      exact renderWireC_commute true (by decide)
        (by simp [mapPair, map_toNat_strC h,
          (by decide : (chars "receipt").map Char.toNat = strBytes "receipt")])
        (by decide)
    | nack f =>
      simp only [byteOKClient, Bool.and_eq_true] at h
      obtain ⟨⟨h1, h2⟩, h3⟩ := h
      refine renderWireC_commute true (by decide) ?_ (by decide)
      simp only [List.map_cons]
      rw [mapPair_optPairC_str "receipt" (by decide) _ h3]
      simp [mapPair, map_toNat_strC h1, map_toNat_strC h2,
        (by decide : (chars "id").map Char.toNat = strBytes "id"),
        (by decide :
          (chars "transaction").map Char.toNat = strBytes "transaction")]
    | send f =>
      simp only [byteOKClient, Bool.and_eq_true] at h
      obtain ⟨⟨⟨⟨⟨h1, h2⟩, h3⟩, h4⟩, h5⟩, h6⟩ := h
      exact renderWireC_commute true (by decide)
        (sendPairsC_commute f h1 h2 h3 h4 h5) (tailC_commute h6)
    | subscribe f =>
      simp only [byteOKClient, Bool.and_eq_true] at h
      obtain ⟨⟨⟨h1, h2⟩, h3⟩, h4⟩ := h
      exact renderWireC_commute true (by decide)
        (subscribePairsC_commute f h1 h2 h3 h4) (by decide)
    | unsubscribe f =>
      simp only [byteOKClient, Bool.and_eq_true] at h
      obtain ⟨h1, h2⟩ := h
      refine renderWireC_commute true (by decide) ?_ (by decide)
      simp only [List.map_cons]
      rw [mapPair_optPairC_str "receipt" (by decide) _ h2]
      simp [mapPair, map_toNat_strC h1,
        (by decide : (chars "id").map Char.toNat = strBytes "id")]
  · intro sf h
    cases sf with
    | connected f =>
      simp only [byteOKServer, Bool.and_eq_true] at h
      obtain ⟨h1, h2⟩ := h
      exact renderWireC_commute false (by decide)
        (connectedPairsC_commute f h1 h2) (by decide)
    | receipt f =>
      simp only [byteOKServer] at h
      exact renderWireC_commute true (by decide)
        (by simp [mapPair, map_toNat_strC h,
          (by decide :
            (chars "receipt-id").map Char.toNat = strBytes "receipt-id")])
        (by decide)
    | error f =>
      simp only [byteOKServer, Bool.and_eq_true] at h
      obtain ⟨h1, h2⟩ := h
      exact renderWireC_commute true (by decide) (mapPair_customC h1)
        (tailC_commute h2)
    | message f =>
      simp only [byteOKServer, Bool.and_eq_true] at h
      obtain ⟨⟨⟨⟨h1, h2⟩, h3⟩, h4⟩, h5⟩ := h
      exact renderWireC_commute true (by decide)
        (messagePairsC_commute f h1 h2 h3 h4) (tailC_commute h5)

/-- Witness for C10 on the MESSAGE frame of the repository's two rendering
tests. -/
theorem display_refines_bytes_witness :
    (displayServer (.message messageExample)).map Char.toNat =
      renderServer (.message messageExample) :=
  display_refines_bytes.2 (.message messageExample) (by decide)
